import Mathlib

/-!
Verification of the `LayoutToNetlist` extraction facade
(`src/src/db/db/dbLayoutToNetlist.cc`) against its natural-language
specification.  The facade's own control flow (state machine, layer
registry, net building, probing) is embedded directly from the source;
the external collaborators it consumes (geometry kernel, deep-layer
store, hierarchical cluster iterators, netlist arena) are modelled from
the specification, as indicated on each definition.
-/

namespace L2NV

/-- Modelled from the spec: the geometry kernel's 8-fold rotation/mirror
codes (`rotation multiple of 90 degrees, optional mirror`), represented
as a quarter-turn count and a mirror flag.  Application mirrors at the
x-axis first, then rotates. -/
def rapply (r : Fin 4 × Bool) (v : ℚ × ℚ) : ℚ × ℚ :=
  let w : ℚ × ℚ := if r.2 then (v.1, -v.2) else v
  match r.1 with
  | 0 => w
  | 1 => (-w.2, w.1)
  | 2 => (-w.1, -w.2)
  | 3 => (w.2, -w.1)

/-- Modelled from the spec: composition of rotation/mirror codes. -/
def rmul (a b : Fin 4 × Bool) : Fin 4 × Bool :=
  (a.1 + (if a.2 then -b.1 else b.1), xor a.2 b.2)

/-- Modelled from the spec: inverse of a rotation/mirror code. -/
def rinv (a : Fin 4 × Bool) : Fin 4 × Bool :=
  ((if a.2 then a.1 else -a.1), a.2)

/-- Modelled from the spec: an integer complex transformation of the
geometry kernel (`db::ICplxTrans` / `db::DCplxTrans`): a magnification,
a rotation/mirror code and a translation.  Coordinates are rationals so
that database-unit compensation is exact. -/
structure ICplxTrans where
  m : ℚ
  rot : Fin 4 × Bool
  dx : ℚ
  dy : ℚ
deriving DecidableEq

/-- Modelled from the spec: transform composition (apply `b` first). -/
def ICplxTrans.mul (a b : ICplxTrans) : ICplxTrans :=
  let v := rapply a.rot (b.dx, b.dy)
  ⟨a.m * b.m, rmul a.rot b.rot, a.dx + a.m * v.1, a.dy + a.m * v.2⟩

/-- Modelled from the spec: the identity transform (`db::Trans ()`). -/
def ICplxTrans.one : ICplxTrans := ⟨1, (0, false), 0, 0⟩

/-- Modelled from the spec: a pure-magnification transform, as built by
the `db::ICplxTrans (double)` constructor. -/
def mkMag (q : ℚ) : ICplxTrans := ⟨q, (0, false), 0, 0⟩

/-- Modelled from the spec: transform inversion. -/
def ICplxTrans.inv (a : ICplxTrans) : ICplxTrans :=
  let v := rapply (rinv a.rot) (a.dx, a.dy)
  ⟨a.m⁻¹, rinv a.rot, -(a.m⁻¹ * v.1), -(a.m⁻¹ * v.2)⟩

/-- Modelled from the spec: `CellInstArray::transform_into (t)` replaces
a placement `a` by `t * a * t.inv` (re-expressing it in the coordinate
system transformed by `t`). -/
def transform_into (a t : ICplxTrans) : ICplxTrans := t.mul (a.mul t.inv)

/-- Database-unit compensation used by `probe_net`:
`dbu_trans * t * dbu_trans_inv` (micron view of an integer transform). -/
def dbuUp (dbu : ℚ) (t : ICplxTrans) : ICplxTrans :=
  (mkMag dbu).mul (t.mul (mkMag dbu).inv)

/-- Database-unit compensation used by `build_all_nets`:
`CplxTrans (dbu).inverted () * t * CplxTrans (dbu)` (integer view of a
micron transform). -/
def dbuDown (dbu : ℚ) (t : ICplxTrans) : ICplxTrans :=
  (mkMag dbu).inv.mul (t.mul (mkMag dbu))

/-- Modelled from the spec: a connection recorded for a local cluster —
`(child_instance, child_cluster_id)` with the instance transform
(`c->inst_cell_index ()`, `c->inst_trans ()`, `c->id ()`). -/
structure ConnM where
  inst_cell : Nat
  inst_tr : ICplxTrans
  child_id : Nat
deriving DecidableEq

/-- Modelled from the spec: one local cluster of the hier-clusters
structure: its owning cell, its id, its per-layer shapes (layer, shape
id pairs) and its connection list. -/
structure ClusterEntry where
  cell : Nat
  cid : Nat
  shapes : List (Nat × Nat)
  conns : List ConnM
deriving DecidableEq

/-- Modelled from the spec: the hier-clusters table (`m_net_clusters`),
as a list of cluster entries. -/
abbrev Clusters := List ClusterEntry

/-- Shapes of cluster `(ci, cid)` on `layer` (empty for absent clusters). -/
def shapesOf (cl : Clusters) (ci cid layer : Nat) : List Nat :=
  match cl.find? (fun e => e.cell == ci && e.cid == cid) with
  | some e => (e.shapes.filter (fun p => p.1 == layer)).map (fun p => p.2)
  | none => []

/-- Connections of cluster `(ci, cid)` (`connections_for_cluster`). -/
def connsOf (cl : Clusters) (ci cid : Nat) : List ConnM :=
  match cl.find? (fun e => e.cell == ci && e.cid == cid) with
  | some e => e.conns
  | none => []

/-- Modelled from the spec: a netlist-level net: its cluster id, the
cell index of its owning circuit, its expanded name and its pin ids. -/
structure NetM where
  cluster_id : Nat
  ccell : Nat
  xname : String
  pins : List Nat
deriving DecidableEq

/-- Modelled from the spec: a subcircuit referencing a circuit from a
parent circuit (an element of `Circuit::begin_refs ()`): its transform,
the cell index of the parent circuit (absent when detached) and the
pin-to-parent-net association (`SubCircuit::net_for_pin`). -/
structure RefM where
  rtrans : ICplxTrans
  parent_cell : Option Nat
  pin_nets : List (Nat × Nat)
deriving DecidableEq

/-- Modelled from the spec: a subcircuit held inside a circuit: its
expanded name, its transform, the cell index of the referenced child
circuit and the pin-to-parent-net association. -/
structure SubCM where
  xname : String
  strans : ICplxTrans
  ref_cell : Nat
  pin_nets : List (Nat × Nat)
deriving DecidableEq

/-- Modelled from the spec: a circuit of the netlist. `pin_nets` is the
circuit-level `Circuit::net_for_pin` (pin id to net cluster id). -/
structure CircuitM where
  cell_index : Nat
  has_parents : Bool
  nets : List NetM
  pins : List Nat
  pin_nets : List (Nat × Nat)
  refs : List RefM
  subcircuits : List SubCM
deriving DecidableEq

/-- Modelled from the spec: the netlist arena: circuits plus the cell
indexes of device-abstract cells. -/
structure NetlistM where
  circuits : List CircuitM
  device_cells : List Nat
deriving DecidableEq

/-- `Netlist::circuit_by_cell_index`. -/
def circuit_by_cell_index (nl : NetlistM) (ci : Nat) : Option CircuitM :=
  nl.circuits.find? (fun c => c.cell_index == ci)

/-- `Netlist::device_abstract_by_cell_index` (as a Boolean test). -/
def isDeviceCell (nl? : Option NetlistM) (ci : Nat) : Bool :=
  match nl? with
  | none => false
  | some nl => nl.device_cells.contains ci

/-- `Circuit::net_by_cluster_id`. -/
def net_by_cluster_id (c : CircuitM) (cid : Nat) : Option NetM :=
  c.nets.find? (fun n => n.cluster_id == cid)

/-- The cell-keeping test of `deliver_shapes_of_net_nonrecursive`:
`! nl || nl->circuit_by_cell_index (cci) || nl->device_abstract_by_cell_index (cci)`. -/
def keepCell (nl? : Option NetlistM) (ci : Nat) : Bool :=
  match nl? with
  | none => true
  | some nl => (circuit_by_cell_index nl ci).isSome || isDeviceCell (some nl) ci

/-- Modelled from the spec: the recursive cluster shape iterator
(`recursive_cluster_shape_iterator`, not under `src/`): depth-first
over connections, a cluster's own shapes first, each shape delivered
with the composed transform.  This is the sequence consumed by
`deliver_shapes_of_net_recursive`; entries are
(cell index, composed transform, shape id). -/
def recShapes (cl : Clusters) (layer : Nat) :
    Nat → Nat → Nat → ICplxTrans → List (Nat × ICplxTrans × Nat)
  | 0, _, _, _ => []
  | fuel+1, ci, cid, t =>
    (shapesOf cl ci cid layer).map (fun s => (ci, t, s)) ++
    (connsOf cl ci cid).flatMap
      (fun c => recShapes cl layer fuel c.inst_cell c.child_id (t.mul c.inst_tr))

/-- `deliver_shapes_of_net_nonrecursive`: walks the same sequence as the
recursive iterator but, at each delivered entry, compares the entry's
cell against the previously delivered cell (`prev_ci`), the start cell
and the netlist; when the entry's cell is foreign, not the start cell
and still kept by the netlist, `skip_cell` skips the rest of that
cell's subtree.  The fold over the connection list threads `prev_ci`
from child to child.  Returns the delivered entries and the final
`prev_ci`. -/
def nonrecGo (cl : Clusters) (nl? : Option NetlistM) (layer ci0 : Nat) :
    Nat → Nat → Nat → ICplxTrans → Nat → List (Nat × ICplxTrans × Nat) × Nat
  | 0, _, _, _, prev => ([], prev)
  | fuel+1, ci, cid, t, prev =>
    let own := shapesOf cl ci cid layer
    if !own.isEmpty && ci != prev && ci != ci0 && keepCell nl? ci then
      ([], prev)
    else
      let prev' := if own.isEmpty then prev else ci
      let r := (connsOf cl ci cid).foldl
        (fun acc c =>
          let rc := nonrecGo cl nl? layer ci0 fuel c.inst_cell c.child_id
            (t.mul c.inst_tr) acc.2
          (acc.1 ++ rc.1, rc.2))
        (([] : List (Nat × ICplxTrans × Nat)), prev')
      (own.map (fun s => (ci, t, s)) ++ r.1, r.2)

/-- The delivery behaviour the specification ascribes to the
non-recursive traversal: a cluster's own shapes plus, flattened, the
subtrees of connections whose child cell is purged (not a circuit and
not a device abstract); subtrees of kept child cells are pruned
entirely.  Stated from the spec's words for comparison with `nonrecGo`. -/
def prunedShapes (cl : Clusters) (nl? : Option NetlistM) (layer ci0 : Nat) :
    Nat → Nat → Nat → ICplxTrans → List (Nat × ICplxTrans × Nat)
  | 0, _, _, _ => []
  | fuel+1, ci, cid, t =>
    (shapesOf cl ci cid layer).map (fun s => (ci, t, s)) ++
    (connsOf cl ci cid).flatMap (fun c =>
      if c.inst_cell != ci0 && keepCell nl? c.inst_cell then []
      else prunedShapes cl nl? layer ci0 fuel c.inst_cell c.child_id (t.mul c.inst_tr))

/-- `LayoutToNetlist::shapes_of_net`: recursive or non-recursive
delivery of the shapes of `net` on a layer, starting at the net's
circuit cell with the identity transform (`prev_ci` starts at the
net's cell). -/
def shapes_of_net (cl : Clusters) (nl? : Option NetlistM) (net : NetM)
    (layer : Nat) (recursive : Bool) (fuel : Nat) : List (Nat × ICplxTrans × Nat) :=
  if recursive then
    recShapes cl layer fuel net.ccell net.cluster_id ICplxTrans.one
  else
    (nonrecGo cl nl? layer net.ccell fuel net.ccell net.cluster_id ICplxTrans.one net.ccell).1

/-- A user-facing region handle: either flat or backed by a deep layer
with a layer id (`is_deep` dispatch of the source, spec 9: a tagged
variant). -/
structure RegionM where
  deep : Bool
  layer : Nat
deriving DecidableEq

/-- The facade state (`LayoutToNetlist` data members relevant to the
claims): the extraction flag, the two named-layer maps
(`m_named_regions`, `m_name_of_layer`), the accumulated connectivity
(`m_conn`), the reference-holding set (`m_dlrefs`), and the lazily
allocated netlist (`mp_netlist`, represented by an allocation id so
that object identity is expressible). -/
structure L2N where
  netlist_extracted : Bool
  named_regions : List (String × Nat)
  name_of_layer : List (Nat × String)
  intra : List Nat
  inter : List (Nat × Nat)
  global_conns : List (Nat × String)
  global_names : List String
  dlrefs : List Nat
  netlist? : Option Nat
  next_nl_id : Nat
deriving DecidableEq

/-- The constructor state: `m_netlist_extracted (false)`, empty maps,
no netlist allocated. -/
def L2N.init : L2N := ⟨false, [], [], [], [], [], [], [], none, 0⟩

/-- `LayoutToNetlist::layer_of`: the deep layer id of a region; throws
for a non-hierarchical region. -/
def layer_of (r : RegionM) : Except String Nat :=
  if r.deep then .ok r.layer
  else .error "Non-hierarchical layers cannot be used in netlist extraction"

/-- `LayoutToNetlist::is_persisted`: the region's layer id has a name. -/
def is_persisted (st : L2N) (r : RegionM) : Bool :=
  (st.name_of_layer.find? (fun p => p.1 == r.layer)).isSome

/-- `LayoutToNetlist::name (region)`: the registered name of the
region's layer, or the empty string. -/
def nameOf (st : L2N) (r : RegionM) : String :=
  match st.name_of_layer.find? (fun p => p.1 == r.layer) with
  | some p => p.2
  | none => ""

/-- `LayoutToNetlist::register_layer`: rejects a duplicate name, rejects
a non-deep region, drops the previous name of an already-persisted
region, then records the new name in both maps. -/
def register_layer (st : L2N) (r : RegionM) (n : String) : Except String L2N :=
  if (st.named_regions.find? (fun p => p.1 == n)).isSome then
    .error ("Layer name is already used: " ++ n)
  else if !r.deep then
    .error "Layer is not a deep region"
  else
    let st1 :=
      if is_persisted st r then
        { st with named_regions :=
            st.named_regions.filter (fun p => p.1 != nameOf st r) }
      else st
    .ok { st1 with
          named_regions := (n, r.layer) :: st1.named_regions,
          name_of_layer :=
            (r.layer, n) :: st1.name_of_layer.filter (fun p => p.1 != r.layer) }

/-- `LayoutToNetlist::connect (l)`: intra-layer connectivity. -/
def connect (st : L2N) (l : RegionM) : Except String L2N :=
  if st.netlist_extracted then
    .error "The netlist has already been extracted"
  else if !l.deep then
    .error "Non-hierarchical layers cannot be used in intra-layer connectivity for netlist extraction"
  else if !is_persisted st l then
    .error "Only named layers can be used in intra-layer connectivity for netlist extraction"
  else
    .ok { st with dlrefs := l.layer :: st.dlrefs, intra := l.layer :: st.intra }

/-- `LayoutToNetlist::connect (a, b)`: inter-layer connectivity. -/
def connect_ab (st : L2N) (a b : RegionM) : Except String L2N :=
  if st.netlist_extracted then
    .error "The netlist has already been extracted"
  else if !a.deep then
    .error "Non-hierarchical layers cannot be used in inter-layer connectivity (first layer) for netlist extraction"
  else if !b.deep then
    .error "Non-hierarchical layers cannot be used in inter-layer connectivity (second layer) for netlist extraction"
  else if !is_persisted st a then
    .error "Only named layers can be used in inter-layer connectivity (first layer) for netlist extraction"
  else if !is_persisted st b then
    .error "Only named layers can be used in inter-layer connectivity (second layer) for netlist extraction"
  else
    .ok { st with dlrefs := b.layer :: a.layer :: st.dlrefs,
                  inter := (a.layer, b.layer) :: st.inter }

/-- Modelled from the spec: `Connectivity::global_net_id` allocates a
dense id per global net name (index into the name table). -/
def global_net_id (st : L2N) (gn : String) : Nat × L2N :=
  match st.global_names.findIdx? (fun s => s == gn) with
  | some i => (i, st)
  | none => (st.global_names.length,
             { st with global_names := st.global_names ++ [gn] })

/-- `LayoutToNetlist::connect_global`. -/
def connect_global (st : L2N) (l : RegionM) (gn : String) : Except String (Nat × L2N) :=
  if st.netlist_extracted then
    .error "The netlist has already been extracted"
  else if !l.deep then
    .error "Non-hierarchical layers cannot be used in global connectivity for netlist extraction"
  else if !is_persisted st l then
    .error "Only named layers can be used in global connectivity for netlist extraction"
  else
    let st1 := { st with dlrefs := l.layer :: st.dlrefs }
    let r := global_net_id st1 gn
    .ok (r.1, { r.2 with global_conns := (l.layer, gn) :: r.2.global_conns })

/-- `LayoutToNetlist::extract_devices`: rejected after extraction;
allocates the netlist when none exists.  The device extractor itself is
an external collaborator and its enrichment of store and netlist is not
modelled. -/
def extract_devices (st : L2N) : Except String L2N :=
  if st.netlist_extracted then
    .error "The netlist has already been extracted"
  else if st.netlist?.isNone then
    .ok { st with netlist? := some st.next_nl_id, next_nl_id := st.next_nl_id + 1 }
  else
    .ok st

/-- `LayoutToNetlist::extract_netlist`: rejected after extraction;
allocates the netlist when none exists, runs the (external) net
extractor, then freezes the state. -/
def extract_netlist (st : L2N) : Except String L2N :=
  if st.netlist_extracted then
    .error "The netlist has already been extracted"
  else
    let st1 :=
      if st.netlist?.isNone then
        { st with netlist? := some st.next_nl_id, next_nl_id := st.next_nl_id + 1 }
      else st
    .ok { st1 with netlist_extracted := true }

/-- `LayoutToNetlist::netlist`: the current netlist (possibly absent). -/
def netlist (st : L2N) : Option Nat := st.netlist?

/-- `LayoutToNetlist::make_netlist`: allocates the netlist when none
exists and returns it. -/
def make_netlist (st : L2N) : Nat × L2N :=
  match st.netlist? with
  | some i => (i, st)
  | none => (st.next_nl_id,
             { st with netlist? := some st.next_nl_id, next_nl_id := st.next_nl_id + 1 })

/-- The state of the target layout during hierarchy rebuild: a fresh
cell counter, the created cells (index, name), the inserted instances
(parent cell, child cell, transform) and the delivered shapes
(cell, target layer, entry). -/
structure Target where
  next_cell : Nat
  cells : List (Nat × String)
  insts : List (Nat × Nat × ICplxTrans)
  shp : List (Nat × Nat × (Nat × ICplxTrans × Nat))
deriving DecidableEq

/-- `Layout::add_cell`: creates a cell with a fresh index and a name. -/
def add_cell (st : Target) (nm : String) : Nat × Target :=
  (st.next_cell,
   { st with next_cell := st.next_cell + 1, cells := (st.next_cell, nm) :: st.cells })

/-- `Cell::insert (CellInstArray)`: records an instance placement. -/
def insert_inst (st : Target) (parent child : Nat) (t : ICplxTrans) : Target :=
  { st with insts := (parent, child, t) :: st.insts }

/-- The memoization map of `build_net_rec`:
`(child_cell_id, child_cluster_id) -> target_cell_id`, with `none`
standing for the `max ()` sentinel of the source. -/
abbrev CMap := List ((Nat × Nat) × Option Nat)

/-- `net->expanded_name ()` of an optional net pointer. -/
def xnameOf (net? : Option NetM) : String :=
  match net? with
  | some n => n.xname
  | none => ""

/-- The `StopOnFirst` probe of `build_net_rec`: does the non-recursive
delivery of cluster `(ci, cid)` yield any shape on any mapped layer? -/
def anyShapes (cl : Clusters) (nl? : Option NetlistM) (lmap : List (Nat × Option Nat))
    (ci cid : Nat) (tr : ICplxTrans) (fuel : Nat) : Bool :=
  lmap.any (fun l =>
    match l.2 with
    | some sl => !(nonrecGo cl nl? sl ci fuel ci cid tr ci).1.isEmpty
    | none => false)

/-- The per-layer shape delivery loop of `build_net_rec`: for every
mapped layer, deliver the cluster's shapes non-recursively into the
target cell's shape collection for that layer. -/
def deliverLayers (cl : Clusters) (nl? : Option NetlistM) (lmap : List (Nat × Option Nat))
    (ci cid tcell : Nat) (tr : ICplxTrans) (fuel : Nat) (st : Target) : Target :=
  lmap.foldl (fun s l =>
    match l.2 with
    | some sl =>
      { s with shp :=
          ((nonrecGo cl nl? sl ci fuel ci cid tr ci).1.map (fun e => (tcell, l.1, e))) ++ s.shp }
    | none => s) st

/-- `tr * db::ICplxTrans (1.0 / tr.mag ())`: the running transform with
its magnification divided out (rotation/translation part). -/
def trWoMag (tr : ICplxTrans) : ICplxTrans := tr.mul (mkMag tr.m⁻¹)

/-- `db::ICplxTrans (tr.mag ())`: the pure-magnification part of the
running transform. -/
def trMag (tr : ICplxTrans) : ICplxTrans := mkMag tr.m

/-- One iteration of the connection loop of `build_net_rec`: memoized
creation of a target cell for a preserved child circuit/device cell
(keyed by `(child_cell, child_cluster)`, sentinel `none` for purged
children), recursion through `rec` (the next-depth invocation, which
carries only the magnification), and instancing into `tcell` with the
rotation/translation part `twm` composed with the connection's instance
transform, adjusted into the magnification system `tm`
(`transform_into`). -/
def bnrStep (nl? : Option NetlistM) (cn : Nat → String) (ccp dcp : Option String)
    (rec : Nat → Nat → Target → Nat → CMap → Target × CMap)
    (tcell : Nat) (twm tm : ICplxTrans)
    (acc : Target × CMap) (c : ConnM) : Target × CMap :=
  let key := (c.inst_cell, c.child_id)
  let step : Option Nat × Target × CMap :=
    match acc.2.find? (fun e => e.1 == key) with
    | some e => (e.2, acc.1, acc.2)
    | none =>
      let np := if isDeviceCell nl? c.inst_cell then dcp else ccp
      match np with
      | some pfx =>
        let ac := add_cell acc.1 (pfx ++ cn c.inst_cell)
        let r := rec c.inst_cell c.child_id ac.2 ac.1 ((key, some ac.1) :: acc.2)
        (some ac.1, r.1, r.2)
      | none => (none, acc.1, (key, none) :: acc.2)
  match step.1 with
  | some tci =>
    (insert_inst step.2.1 tcell tci (transform_into (twm.mul c.inst_tr) tm), step.2.2)
  | none => (step.2.1, step.2.2)

/-- `LayoutToNetlist::build_net_rec (ci, cid, ...)`: when a net-cell
name stem `ncp` is given, either elide the net cell (no connections
counted toward `any_connections` and no shapes on any mapped layer) or
create a cell named `ncp ++ net->expanded_name ()` and instance it once
into `tc`; deliver the cluster's shapes on each mapped layer; then,
unless both child stems are null, walk the cluster's connections with
`bnrStep`, the recursion carrying only the magnification part of the
running transform. -/
def build_net_rec (cl : Clusters) (nl? : Option NetlistM) (cellName : Nat → String)
    (lmap : List (Nat × Option Nat)) (ccp dcp : Option String) :
    Nat → Nat → Nat → Target → Nat → Option NetM → Option String → CMap → ICplxTrans →
    Target × CMap
  | 0, _, _, st, _, _, _, cmap, _ => (st, cmap)
  | fuel+1, ci, cid, st, tc, net?, ncp, cmap, tr =>
    let conns := connsOf cl ci cid
    let any_connections := ccp.isSome && !conns.isEmpty
    let mk : Option (Nat × Target) :=
      match ncp with
      | none => some (tc, st)
      | some p =>
        if !any_connections && !anyShapes cl nl? lmap ci cid tr (fuel+1) then none
        else
          let ac := add_cell st (p ++ xnameOf net?)
          some (ac.1, insert_inst ac.2 tc ac.1 ICplxTrans.one)
    match mk with
    | none => (st, cmap)
    | some (tcell, st1) =>
      let st2 := deliverLayers cl nl? lmap ci cid tcell tr (fuel+1) st1
      if ccp.isNone && dcp.isNone then (st2, cmap)
      else
        conns.foldl
          (bnrStep nl? cellName ccp dcp
            (fun a b s t m =>
              build_net_rec cl nl? cellName lmap ccp dcp fuel a b s t none none m
                (trMag tr))
            tcell (trWoMag tr) (trMag tr))
          (st2, cmap)

/-- `LayoutToNetlist::build_net`: rejected before extraction; otherwise
rebuilds the net starting at the net's circuit cell with a fresh
memoization map, a null net-cell stem and a pure-magnification initial
transform `dbu_source / dbu_target`. -/
def build_net (st : L2N) (cl : Clusters) (nl? : Option NetlistM) (cellName : Nat → String)
    (net : NetM) (lmap : List (Nat × Option Nat)) (ccp dcp : Option String)
    (dbu_src dbu_tgt : ℚ) (tgt : Target) (tcell : Nat) (fuel : Nat) :
    Except String (Target × CMap) :=
  if !st.netlist_extracted then
    .error "The netlist has not been extracted yet"
  else
    .ok (build_net_rec cl nl? cellName lmap ccp dcp fuel net.ccell net.cluster_id
           tgt tcell (some net) none [] (mkMag (dbu_src / dbu_tgt)))

/-- One `build_net_rec` invocation issued by `build_all_nets`: the
emitting circuit, whether it came from the dangling-pin pass, the
cluster being rebuilt `(src_ci, src_cid)`, the net's expanded name, the
target cell, the net-cell stem and the initial transform. -/
structure BuildCall where
  origin : Nat
  dangling : Bool
  src_ci : Nat
  src_cid : Nat
  net_name : String
  target_cell : Nat
  ncp : Option String
  tr : ICplxTrans
deriving DecidableEq

/-- The `build_net_rec` invocations `build_all_nets` issues for one
circuit: nothing when the cell mapping has no entry; otherwise the
direct net loop (skipping, in recursive mode, non-top nets with pins)
followed by the dangling-pin pass over subcircuits (rendering child
nets of pins with no parent-side net under a
`stem ++ subcircuit ++ ":"` net-cell stem, with the subcircuit's
dbu-compensated, magnification-adjusted transform). -/
def circuit_calls (nl : NetlistM) (cmap : List (Nat × Nat)) (ncp ccp dcp : Option String)
    (mag dbu_t : ℚ) (c : CircuitM) : List BuildCall :=
  match cmap.find? (fun p => p.1 == c.cell_index) with
  | none => []
  | some pm =>
    let is_top := !c.has_parents
    let direct := c.nets.filterMap (fun n =>
      if ccp.isSome && !is_top && !n.pins.isEmpty then none
      else some ⟨c.cell_index, false, c.cell_index, n.cluster_id, n.xname, pm.2, ncp, mkMag mag⟩)
    let dang :=
      if ccp.isSome then
        c.subcircuits.flatMap (fun sc =>
          match circuit_by_cell_index nl sc.ref_cell with
          | none => []
          | some rc =>
            rc.pins.filterMap (fun p =>
              if (sc.pin_nets.find? (fun q => q.1 == p)).isSome then none
              else
                match rc.pin_nets.find? (fun q => q.1 == p) with
                | none => none
                | some q =>
                  match net_by_cluster_id rc q.2 with
                  | none => none
                  | some n =>
                    some ⟨c.cell_index, true, rc.cell_index, n.cluster_id, n.xname, pm.2,
                          (match ncp with
                           | some pfx => some (pfx ++ sc.xname ++ ":")
                           | none => none),
                          (mkMag mag).mul (dbuDown dbu_t sc.strans)⟩))
      else []
    direct ++ dang

/-- All `build_net_rec` invocations of `build_all_nets`, in circuit
iteration order. -/
def build_all_nets_calls (nl : NetlistM) (cmap : List (Nat × Nat)) (ncp ccp dcp : Option String)
    (mag dbu_t : ℚ) : List BuildCall :=
  nl.circuits.flatMap (circuit_calls nl cmap ncp ccp dcp mag dbu_t)

/-- `LayoutToNetlist::build_all_nets`: rejected before extraction;
otherwise iterates the circuits with magnification
`dbu_source / dbu_target`. -/
def build_all_nets (st : L2N) (nl : NetlistM) (cmap : List (Nat × Nat))
    (ncp ccp dcp : Option String) (dbu_src dbu_tgt : ℚ) :
    Except String (List BuildCall) :=
  if !st.netlist_extracted then
    .error "The netlist has not been extracted yet"
  else
    .ok (build_all_nets_calls nl cmap ncp ccp dcp (dbu_src / dbu_tgt) dbu_tgt)

/-- A cell of the internal layout for probing: its child instances
(child cell, instance transform), flattening instance arrays. -/
structure CellNode where
  idx : Nat
  insts : List (Nat × ICplxTrans)

/-- The probing environment: the internal layout's cells and top cell,
its database unit, and — modelled from the spec — the external
geometry tests: `hit ci cid trans` is
`local_cluster::interacts (test_cluster, trans, conn)` for the test
cluster built at the probed point on the probed layer, and
`clusterIds ci` enumerates the cell's local clusters in the touching
iteration order. -/
structure LayoutEnv where
  cells : List CellNode
  top : Nat
  dbu : ℚ
  hit : Nat → Nat → ICplxTrans → Bool
  clusterIds : Nat → List Nat

/-- Child instances of a cell (empty for absent cells). -/
def instsOf (env : LayoutEnv) (ci : Nat) : List (Nat × ICplxTrans) :=
  match env.cells.find? (fun c => c.idx == ci) with
  | some c => c.insts
  | none => []

/-- `LayoutToNetlist::search_net`: test the cell's local clusters
against the test cluster; on a hit return the cluster id with an empty
reversed path; on a miss descend into each touching instance with the
inverted instance transform composed in — the first instance whose
subtree yields a hit wins and its element is appended to the reversed
path.  Returns 0 when nothing is found. -/
def search_net (env : LayoutEnv) : Nat → ICplxTrans → Nat → Nat × List (Nat × ICplxTrans)
  | 0, _, _ => (0, [])
  | fuel+1, tcur, ci =>
    match (env.clusterIds ci).find? (fun cid => env.hit ci cid tcur) with
    | some cid => (cid, [])
    | none =>
      (instsOf env ci).foldl
        (fun acc i =>
          if 0 < acc.1 then acc
          else
            let r := search_net env fuel (i.2.inv.mul tcur) i.1
            if 0 < r.1 then (r.1, r.2 ++ [i]) else acc)
        ((0, []) : Nat × List (Nat × ICplxTrans))

/-- The parent-connection search of `probe_net`'s upward climb: scan
the circuit's referencing subcircuits in order for the first one whose
transform equals the dbu-compensated path transform, whose parent
circuit carries the expected cell index, and whose parent-side net for
the pin exists; yield that parent circuit and net. -/
def findUpper (nlm : NetlistM) (dtrans : ICplxTrans) (nextci : Option Nat) (pinId : Nat) :
    List RefM → Option (CircuitM × NetM)
  | [] => none
  | r :: rest =>
    let matched :=
      r.rtrans == dtrans &&
      (match r.parent_cell, nextci with
       | some pc, some nc => pc == nc
       | _, _ => false)
    let resolved : Option (CircuitM × NetM) :=
      if matched then
        match r.parent_cell with
        | some pc =>
          match circuit_by_cell_index nlm pc with
          | some uc =>
            match r.pin_nets.find? (fun q => q.1 == pinId) with
            | some q => Option.map (fun un => (uc, un)) (net_by_cluster_id uc q.2)
            | none => none
          | none => none
        | none => none
      else none
    match resolved with
    | some res => some res
    | none => findUpper nlm dtrans nextci pinId rest

/-- The upward climb of `probe_net` (source lines 770-797): while the
instance path is non-empty and the net has pins, pop the leaf cell
index, take the net's first pin, dbu-compensate the last path element's
transform, search the referencing subcircuits, and either move to the
parent-side net or stop.  `path` and `cells` are kept leaf-first, so
the source's `back ()`/`pop_back ()` become head operations. -/
def climb (nlm : NetlistM) (dbu : ℚ) :
    List (Nat × ICplxTrans) → List Nat → CircuitM → NetM → CircuitM × NetM
  | [], _, c, n => (c, n)
  | pe :: prest, cells, c, n =>
    if n.pins.isEmpty then (c, n)
    else
      let cells' := cells.tail
      match findUpper nlm (dbuUp dbu pe.2) cells'.head? (n.pins.headD 0) c.refs with
      | some r => climb nlm dbu prest cells' r.1 r.2
      | none => (c, n)

/-- `LayoutToNetlist::probe_net (region, point)`: rejected before
extraction; resolves the region's deep layer (throwing for a
non-hierarchical region); searches the hierarchy from the top cell; a
miss, a missing circuit or a missing net yield an absent result;
otherwise the found net is climbed upward and the highest net returned.
The probed point and layer are folded into `env.hit`. -/
def probe_net (st : L2N) (env : LayoutEnv) (nlm : NetlistM) (r : RegionM) (fuel : Nat) :
    Except String (Option NetM) :=
  if !st.netlist_extracted then
    .error "The netlist has not been extracted yet"
  else
    match layer_of r with
    | .error e => .error e
    | .ok _ =>
      let sr := search_net env fuel ICplxTrans.one env.top
      if 0 < sr.1 then
        let leaf := (sr.2.map (fun e => e.1)).headD env.top
        match circuit_by_cell_index nlm leaf with
        | none => .ok none
        | some circuit =>
          match net_by_cluster_id circuit sr.1 with
          | none => .ok none
          | some net =>
            .ok (some (climb nlm env.dbu sr.2
                        (sr.2.map (fun e => e.1) ++ [env.top]) circuit net).2)
      else .ok none

/-! Concrete instances used to evaluate the definitions on closed
inputs. -/

/-- An empty probing environment: no cells, no clusters, nothing hit. -/
def envTrivial : LayoutEnv := ⟨[], 0, 1, fun _ _ _ => false, fun _ => []⟩

/-- An empty netlist. -/
def nlEmpty : NetlistM := ⟨[], []⟩

/-- The facade state right after a successful `extract_netlist` on a
fresh facade. -/
def stExtracted : L2N := ⟨true, [], [], [], [], [], [], [], some 0, 1⟩

/-- A sample parent-circuit net (cluster 5 of circuit cell 0, no pins). -/
def netP4 : NetM := ⟨5, 0, "np", []⟩

/-- A sample leaf-circuit net (cluster 7 of circuit cell 1, pin 3). -/
def netC4 : NetM := ⟨7, 1, "nc", [3]⟩

/-- A sample parent circuit at cell index 0. -/
def circP4 : CircuitM := ⟨0, false, [netP4], [], [], [], []⟩

/-- A sample leaf circuit at cell index 1, referenced from cell 0 with
the identity transform, its pin 3 wired to parent cluster 5. -/
def circC4 : CircuitM :=
  ⟨1, true, [netC4], [3], [(3, 7)], [⟨ICplxTrans.one, some 0, [(3, 5)]⟩], []⟩

/-- A sample two-level netlist for the climb. -/
def nl4 : NetlistM := ⟨[circP4, circC4], []⟩

/-- A sample clusters table for the net-cell elision: cluster 1 of cell
5 has no shapes but one connection into cell 6, whose cluster is
absent. -/
def cl2 : Clusters := [⟨5, 1, [], [⟨6, ICplxTrans.one, 1⟩]⟩]

/-- A sample net for cluster `(5, 1)`. -/
def net2 : NetM := ⟨1, 5, "n1", []⟩

/-- A sample clusters table where cluster `(5, 1)` owns shape 42 on
layer 0 and has no connections. -/
def cl2b : Clusters := [⟨5, 1, [(0, 42)], []⟩]

/-- A sample target layout state with ten pre-existing cell indexes. -/
def tgt2 : Target := ⟨10, [], [], []⟩

/-- A sample clusters table for the non-recursive delivery: the start
cluster `(0, 1)` owns shape 10 on layer 0 and connects into cell 1,
whose cluster `(1, 1)` owns no shapes on layer 0 but connects into the
purged cell 2, whose cluster `(2, 1)` owns shape 20. -/
def cl6 : Clusters :=
  [⟨0, 1, [(0, 10)], [⟨1, ICplxTrans.one, 1⟩]⟩,
   ⟨1, 1, [], [⟨2, ICplxTrans.one, 1⟩]⟩,
   ⟨2, 1, [(0, 20)], []⟩]

/-- A netlist keeping cells 0 and 1 as circuits; cell 2 is purged. -/
def nl6 : NetlistM :=
  ⟨[⟨0, false, [], [], [], [], []⟩, ⟨1, true, [], [], [], [], []⟩], []⟩

/-- The net whose cluster is `(0, 1)` in `cl6`. -/
def net6 : NetM := ⟨1, 0, "n6", []⟩

/-- Like `cl6`, but the kept cell 1 owns shape 30 on layer 0, so the
per-shape skip check fires on its cluster. -/
def cl6w : Clusters :=
  [⟨0, 1, [(0, 10)], [⟨1, ICplxTrans.one, 1⟩]⟩,
   ⟨1, 1, [(0, 30)], [⟨2, ICplxTrans.one, 1⟩]⟩,
   ⟨2, 1, [(0, 20)], []⟩]

/-- A sample top circuit (cell 0) instancing a child circuit (cell 1);
the child's pin 4 has no parent-side net but a child-side net. -/
def netT3 : NetM := ⟨2, 0, "top", []⟩

/-- A child-circuit net with a pin, owned by circuit cell 1. -/
def netL3 : NetM := ⟨9, 1, "loc", [4]⟩

/-- The child circuit at cell 1: one net with pin 4 wired to it, no
parent-side wiring recorded in the subcircuit. -/
def circL3 : CircuitM := ⟨1, true, [netL3], [4], [(4, 9)], [], []⟩

/-- The top circuit at cell 0 with one subcircuit instancing cell 1
(identity transform, no pin wired). -/
def circT3 : CircuitM :=
  ⟨0, false, [netT3], [], [], [], [⟨"sc1", ICplxTrans.one, 1, []⟩]⟩

/-- A sample netlist for `build_all_nets`. -/
def nl3 : NetlistM := ⟨[circT3, circL3], []⟩

/-- A sample cell mapping for `nl3`: cell 0 to target 100, cell 1 to
target 101. -/
def cmap3 : List (Nat × Nat) := [(0, 100), (1, 101)]

/-! Theorems.  Helper lemmas come first, then one theorem per claim
(plus witnesses and counterexamples). -/

theorem extract_netlist_sets_flag (s s' : L2N) (h : extract_netlist s = .ok s') :
    s'.netlist_extracted = true := by
  unfold extract_netlist at h
  split at h
  · simp at h
  · simp only [Except.ok.injEq] at h
    subst h
    rfl

/-- C1: the facade is a one-way `Building -> Extracted` state machine:
after `extract_netlist` succeeds, `connect`, `connect (a, b)`,
`connect_global`, `extract_devices` and `extract_netlist` all fail with
the already-extracted state violation; before extraction, `build_net`,
`build_all_nets` and `probe_net` fail with the not-yet-extracted state
violation. -/
theorem c1_state_machine (s s' : L2N) (h : extract_netlist s = .ok s')
    (l a b : RegionM) (gn : String) (t : L2N) (ht : t.netlist_extracted = false) :
    connect s' l = .error "The netlist has already been extracted" ∧
    connect_ab s' a b = .error "The netlist has already been extracted" ∧
    connect_global s' l gn = .error "The netlist has already been extracted" ∧
    extract_devices s' = .error "The netlist has already been extracted" ∧
    extract_netlist s' = .error "The netlist has already been extracted" ∧
    (∀ cl nl? cn net lmap ccp dcp ds dt tg tc f,
      build_net t cl nl? cn net lmap ccp dcp ds dt tg tc f =
        .error "The netlist has not been extracted yet") ∧
    (∀ nl cm ncp ccp dcp ds dt,
      build_all_nets t nl cm ncp ccp dcp ds dt =
        .error "The netlist has not been extracted yet") ∧
    (∀ env nlm r f,
      probe_net t env nlm r f = .error "The netlist has not been extracted yet") := by
  have hs := extract_netlist_sets_flag s s' h
  exact ⟨by simp [connect, hs], by simp [connect_ab, hs], by simp [connect_global, hs],
         by simp [extract_devices, hs], by simp [extract_netlist, hs],
         fun cl nl? cn net lmap ccp dcp ds dt tg tc f => by simp [build_net, ht],
         fun nl cm ncp ccp dcp ds dt => by simp [build_all_nets, ht],
         fun env nlm r f => by simp [probe_net, ht]⟩

theorem c1_state_machine_witness :
    connect stExtracted ⟨true, 0⟩ = .error "The netlist has already been extracted" ∧
    probe_net L2N.init envTrivial nlEmpty ⟨true, 0⟩ 1 =
      .error "The netlist has not been extracted yet" := by
  have h := c1_state_machine L2N.init stExtracted (by rfl) ⟨true, 0⟩ ⟨true, 0⟩ ⟨true, 0⟩
    "G" L2N.init (by rfl)
  exact ⟨h.1, h.2.2.2.2.2.2.2 envTrivial nlEmpty ⟨true, 0⟩ 1⟩

/-- C9: `register_layer` fails with the duplicate-name error whenever
the name is already present in the named-region registry; otherwise,
for a deep region already persisted under another name, the old name is
dropped from the registry, the region becomes registered under the new
name and `name (region)` afterwards returns the new name. -/
theorem c9_register_layer (st : L2N) (r : RegionM) (n : String) :
    ((st.named_regions.find? (fun p => p.1 == n)).isSome = true →
      register_layer st r n = .error ("Layer name is already used: " ++ n)) ∧
    ((st.named_regions.find? (fun p => p.1 == n)).isSome = false → r.deep = true →
      is_persisted st r = true →
      ∃ st', register_layer st r n = .ok st' ∧
        st'.named_regions.find? (fun p => p.1 == n) = some (n, r.layer) ∧
        nameOf st' r = n ∧
        (¬ nameOf st r = n →
          st'.named_regions.find? (fun p => p.1 == nameOf st r) = none)) := by
  constructor
  · intro hdup
    simp [register_layer, hdup]
  · intro hfresh hdeep hpers
    refine ⟨{ st with
              named_regions := (n, r.layer) ::
                st.named_regions.filter (fun p => p.1 != nameOf st r),
              name_of_layer := (r.layer, n) ::
                st.name_of_layer.filter (fun p => p.1 != r.layer) },
            ?_, ?_, ?_, ?_⟩
    · simp [register_layer, hfresh, hdeep, hpers]
    · simp [List.find?_cons]
    · simp [nameOf, List.find?_cons]
    · intro hne
      simp only [List.find?_cons]
      have hh : ((n, r.layer).1 == nameOf st r) = false := by
        simp only [beq_eq_false_iff_ne, ne_eq]
        exact fun hc => hne hc.symm
      rw [hh]
      apply List.find?_eq_none.mpr
      intro x hx
      have := (List.mem_filter.mp hx).2
      simpa [bne] using this

theorem c9_register_layer_witness :
    (((⟨false, [("A", 7)], [(7, "A")], [], [], [], [], [], none, 0⟩ :
        L2N).named_regions.find? (fun p => p.1 == "A")).isSome = true ∧
      register_layer ⟨false, [("A", 7)], [(7, "A")], [], [], [], [], [], none, 0⟩
        ⟨true, 7⟩ "A" = .error ("Layer name is already used: " ++ "A")) ∧
    ∃ st', register_layer ⟨false, [("A", 7)], [(7, "A")], [], [], [], [], [], none, 0⟩
        ⟨true, 7⟩ "B" = .ok st' ∧
      st'.named_regions.find? (fun p => p.1 == "B") = some ("B", 7) ∧
      nameOf st' ⟨true, 7⟩ = "B" ∧
      st'.named_regions.find? (fun p => p.1 == "A") = none := by
  have h1 := (c9_register_layer ⟨false, [("A", 7)], [(7, "A")], [], [], [], [], [], none, 0⟩
    ⟨true, 7⟩ "A").1 (by decide)
  have h2 := (c9_register_layer ⟨false, [("A", 7)], [(7, "A")], [], [], [], [], [], none, 0⟩
    ⟨true, 7⟩ "B").2 (by decide) (by decide) (by decide)
  obtain ⟨st', he, hf, hn, ho⟩ := h2
  refine ⟨⟨by decide, h1⟩, st', he, hf, hn, ?_⟩
  have : nameOf ⟨false, [("A", 7)], [(7, "A")], [], [], [], [], [], none, 0⟩ ⟨true, 7⟩ = "A" := by
    decide
  rw [← this]
  exact ho (by rw [this]; decide)

theorem global_net_id_netlist (st : L2N) (gn : String) :
    (global_net_id st gn).2.netlist? = st.netlist? := by
  unfold global_net_id
  cases hc : List.findIdx? (fun s => s == gn) st.global_names <;> rfl

/-- C10: the netlist is created lazily: `netlist` is absent on the
fresh facade; `extract_devices` and `extract_netlist` allocate it
exactly when none exists and otherwise keep the existing object;
`make_netlist` does the same; and the connectivity and registration
operations never touch it, so once allocated the same object is
returned for the rest of the session. -/
theorem c10_lazy_netlist (st : L2N) (i : Nat) :
    netlist L2N.init = none ∧
    (st.netlist_extracted = false → st.netlist? = none →
      ∃ st', extract_devices st = .ok st' ∧ st'.netlist? = some st.next_nl_id) ∧
    (st.netlist_extracted = false → st.netlist? = some i →
      extract_devices st = .ok st) ∧
    (st.netlist_extracted = false → st.netlist? = some i →
      ∃ st', extract_netlist st = .ok st' ∧ st'.netlist? = some i) ∧
    (st.netlist_extracted = false → st.netlist? = none →
      ∃ st', extract_netlist st = .ok st' ∧ st'.netlist? = some st.next_nl_id) ∧
    (st.netlist? = some i → make_netlist st = (i, st)) ∧
    (st.netlist? = none →
      (make_netlist st).1 = st.next_nl_id ∧
      (make_netlist st).2.netlist? = some st.next_nl_id) ∧
    (∀ l st', connect st l = .ok st' → netlist st' = netlist st) ∧
    (∀ a b st', connect_ab st a b = .ok st' → netlist st' = netlist st) ∧
    (∀ l gn res, connect_global st l gn = .ok res → netlist res.2 = netlist st) ∧
    (∀ r n st', register_layer st r n = .ok st' → netlist st' = netlist st) := by
  refine ⟨rfl, ?_, ?_, ?_, ?_, ?_, ?_, ?_, ?_, ?_, ?_⟩
  · intro h1 h2
    refine ⟨{ st with netlist? := some st.next_nl_id, next_nl_id := st.next_nl_id + 1 },
            ?_, rfl⟩
    simp [extract_devices, h1, h2]
  · intro h1 h2
    simp [extract_devices, h1, h2]
  · intro h1 h2
    refine ⟨{ st with netlist_extracted := true }, ?_, by simpa using h2⟩
    simp [extract_netlist, h1, h2]
  · intro h1 h2
    refine ⟨{ st with netlist_extracted := true, netlist? := some st.next_nl_id, next_nl_id := st.next_nl_id + 1 }, ?_, rfl⟩
    simp [extract_netlist, h1, h2]
  · intro h
    simp [make_netlist, h]
  · intro h
    simp [make_netlist, h]
  · intro l st' h
    unfold connect at h
    repeat' split at h
    all_goals
      first
        | (simp at h; done)
        | (simp only [Except.ok.injEq] at h; subst h; simp [netlist])
  · intro a b st' h
    unfold connect_ab at h
    repeat' split at h
    all_goals
      first
        | (simp at h; done)
        | (simp only [Except.ok.injEq] at h; subst h; simp [netlist])
  · intro l gn res h
    unfold connect_global at h
    repeat' split at h
    all_goals
      first
        | (simp at h; done)
        | (simp only [Except.ok.injEq] at h; subst h;
           simp [netlist, global_net_id_netlist])
  · intro r n st' h
    unfold register_layer at h
    repeat' split at h
    all_goals
      first
        | (simp at h; done)
        | (simp only [Except.ok.injEq] at h; subst h; simp [netlist])

theorem c10_lazy_netlist_witness :
    netlist L2N.init = none ∧
    (∃ st', extract_devices L2N.init = .ok st' ∧ st'.netlist? = some 0) ∧
    make_netlist stExtracted = (0, stExtracted) := by
  have h := c10_lazy_netlist L2N.init 0
  exact ⟨h.1, h.2.1 rfl rfl, (c10_lazy_netlist stExtracted 0).2.2.2.2.2.1 rfl⟩

theorem search_fold_miss (env : LayoutEnv) (f : Nat) (tcur : ICplxTrans)
    (hz : ∀ tt ci, search_net env f tt ci = (0, [])) :
    ∀ l : List (Nat × ICplxTrans),
      l.foldl (fun acc i =>
          if 0 < acc.1 then acc
          else
            let r := search_net env f (i.2.inv.mul tcur) i.1
            if 0 < r.1 then (r.1, r.2 ++ [i]) else acc)
        ((0, []) : Nat × List (Nat × ICplxTrans)) = (0, []) := by
  intro l
  induction l with
  | nil => rfl
  | cons i rest ih =>
    simp only [List.foldl_cons, hz]
    simpa using ih

theorem search_net_miss (env : LayoutEnv)
    (hh : ∀ ci cid tt, env.hit ci cid tt = false) :
    ∀ fuel tt ci, search_net env fuel tt ci = (0, []) := by
  intro fuel
  induction fuel with
  | zero =>
    intro tt ci
    rfl
  | succ f ih =>
    intro tt ci
    have hfind : (env.clusterIds ci).find? (fun cid => env.hit ci cid tt) = none := by
      apply List.find?_eq_none.mpr
      intro x _
      simp [hh]
    simp only [search_net, hfind]
    exact search_fold_miss env f tt (fun a b => ih a b) (instsOf env ci)

/-- The claim of C5 fails on the code: `probe_net` does not reject a
non-persisted (unnamed) region; with an extracted state, a deep but
unnamed region and an empty hierarchy it returns an absent result
instead of an error. -/
theorem c5_counterexample :
    is_persisted stExtracted ⟨true, 0⟩ = false ∧
    probe_net stExtracted envTrivial nlEmpty ⟨true, 0⟩ 3 = .ok none := by
  constructor
  · rfl
  · rfl

/-- C5 (amended): `probe_net` fails with the state violation before
extraction and with the layer-domain error for a non-hierarchical
(non-deep) region — persistence is not checked — and returns an absent
result, not an error, when the test cluster hits nothing anywhere in
the hierarchy. -/
theorem c5_probe_failures (st : L2N) (env : LayoutEnv) (nlm : NetlistM)
    (r : RegionM) (fuel : Nat) :
    (st.netlist_extracted = false →
      probe_net st env nlm r fuel = .error "The netlist has not been extracted yet") ∧
    (st.netlist_extracted = true → r.deep = false →
      probe_net st env nlm r fuel =
        .error "Non-hierarchical layers cannot be used in netlist extraction") ∧
    (st.netlist_extracted = true → r.deep = true →
      (∀ ci cid tt, env.hit ci cid tt = false) →
      probe_net st env nlm r fuel = .ok none) := by
  refine ⟨?_, ?_, ?_⟩
  · intro h
    simp [probe_net, h]
  · intro h1 h2
    simp [probe_net, h1, layer_of, h2]
  · intro h1 h2 hh
    have hs := search_net_miss env hh fuel ICplxTrans.one env.top
    simp [probe_net, h1, layer_of, h2, hs]

theorem c5_probe_failures_witness :
    probe_net L2N.init envTrivial nlEmpty ⟨true, 0⟩ 2 =
      .error "The netlist has not been extracted yet" ∧
    probe_net stExtracted envTrivial nlEmpty ⟨false, 0⟩ 2 =
      .error "Non-hierarchical layers cannot be used in netlist extraction" ∧
    probe_net stExtracted envTrivial nlEmpty ⟨true, 0⟩ 2 = .ok none := by
  refine ⟨(c5_probe_failures L2N.init envTrivial nlEmpty ⟨true, 0⟩ 2).1 rfl,
          (c5_probe_failures stExtracted envTrivial nlEmpty ⟨false, 0⟩ 2).2.1 rfl rfl,
          (c5_probe_failures stExtracted envTrivial nlEmpty ⟨true, 0⟩ 2).2.2 rfl rfl ?_⟩
  intro ci cid tt
  rfl

theorem rapply_zero (r : Fin 4 × Bool) : rapply r 0 = 0 := by
  rcases r with ⟨k, f⟩
  fin_cases k <;> cases f <;> simp [rapply, Prod.ext_iff]

theorem one_mul_t (a : ICplxTrans) : ICplxTrans.one.mul a = a := by
  rcases a with ⟨m, ⟨k, f⟩, dx, dy⟩
  simp [ICplxTrans.mul, ICplxTrans.one, rapply, rmul]

theorem mul_one_t (a : ICplxTrans) : a.mul ICplxTrans.one = a := by
  rcases a with ⟨m, ⟨k, f⟩, dx, dy⟩
  simp [ICplxTrans.mul, ICplxTrans.one, rmul, rapply_zero]

theorem one_inv_t : ICplxTrans.one.inv = ICplxTrans.one := by
  simp [ICplxTrans.inv, ICplxTrans.one, rinv, rapply_zero]

theorem mkMag_one_eq : mkMag 1 = ICplxTrans.one := rfl

theorem dbuUp_one (t : ICplxTrans) : dbuUp 1 t = t := by
  simp [dbuUp, mkMag_one_eq, one_inv_t, one_mul_t, mul_one_t]

theorem dbuDown_one (t : ICplxTrans) : dbuDown 1 t = t := by
  simp [dbuDown, mkMag_one_eq, one_inv_t, one_mul_t, mul_one_t]

/-- C4: the upward climb of `probe_net`: with an empty instance path or
a pinless net the current net is returned; otherwise the net's first
pin is taken, the referencing subcircuits are searched for one whose
transform equals the dbu-compensated last path element and whose parent
circuit matches the next cell index on the path, and the climb proceeds
from that pin's parent-side net, or stops when no such parent
connection exists; `probe_net` returns the net the climb reaches. -/
theorem c4_upward_climb (nlm : NetlistM) (dbu : ℚ) :
    (∀ cells c n, climb nlm dbu [] cells c n = (c, n)) ∧
    (∀ pe prest cells (c : CircuitM) (n : NetM), n.pins = [] →
      climb nlm dbu (pe :: prest) cells c n = (c, n)) ∧
    (∀ pe prest cells (c : CircuitM) (n : NetM) uc un, n.pins ≠ [] →
      findUpper nlm (dbuUp dbu pe.2) cells.tail.head? (n.pins.headD 0) c.refs =
        some (uc, un) →
      climb nlm dbu (pe :: prest) cells c n = climb nlm dbu prest cells.tail uc un) ∧
    (∀ pe prest cells (c : CircuitM) (n : NetM), n.pins ≠ [] →
      findUpper nlm (dbuUp dbu pe.2) cells.tail.head? (n.pins.headD 0) c.refs = none →
      climb nlm dbu (pe :: prest) cells c n = (c, n)) ∧
    (∀ (st : L2N) env (r : RegionM) fuel circuit net,
      st.netlist_extracted = true → r.deep = true →
      0 < (search_net env fuel ICplxTrans.one env.top).1 →
      circuit_by_cell_index nlm
        (((search_net env fuel ICplxTrans.one env.top).2.map (fun e => e.1)).headD env.top) =
        some circuit →
      net_by_cluster_id circuit (search_net env fuel ICplxTrans.one env.top).1 = some net →
      probe_net st env nlm r fuel =
        .ok (some (climb nlm env.dbu (search_net env fuel ICplxTrans.one env.top).2
          ((search_net env fuel ICplxTrans.one env.top).2.map (fun e => e.1) ++ [env.top])
          circuit net).2)) := by
  refine ⟨?_, ?_, ?_, ?_, ?_⟩
  · intro cells c n
    rfl
  · intro pe prest cells c n h
    simp [climb, h]
  · intro pe prest cells c n uc un h hf
    have hne : n.pins.isEmpty = false := by
      simpa [List.isEmpty_iff] using h
    simp at hf
    simp [climb, hne, hf]
  · intro pe prest cells c n h hf
    have hne : n.pins.isEmpty = false := by
      simpa [List.isEmpty_iff] using h
    simp at hf
    simp [climb, hne, hf]
  · intro st env r fuel circuit net h1 h2 hpos hcirc hnet
    simp at hcirc
    simp [probe_net, h1, layer_of, h2, hpos, hcirc, hnet]

theorem c4_upward_climb_witness :
    climb nl4 1 [(1, ICplxTrans.one)] [1, 0] circC4 netC4 = (circP4, netP4) := by
  have h := c4_upward_climb nl4 1
  have hf : findUpper nl4 (dbuUp 1 ((1 : Nat), ICplxTrans.one).2)
      ([1, 0] : List Nat).tail.head? (netC4.pins.headD 0) circC4.refs =
      some (circP4, netP4) := by
    simp [findUpper, dbuUp_one, circC4, circP4, netP4, netC4, nl4,
      circuit_by_cell_index, net_by_cluster_id]
  rw [h.2.2.1 (1, ICplxTrans.one) [] [1, 0] circC4 netC4 circP4 netP4
    (by simp [netC4]) hf]
  exact h.1 [0] circP4 netP4

theorem circuit_calls_origin (nl : NetlistM) (cmap : List (Nat × Nat))
    (ncp ccp dcp : Option String) (mag dbu : ℚ) (c : CircuitM) :
    ∀ b ∈ circuit_calls nl cmap ncp ccp dcp mag dbu c, b.origin = c.cell_index := by
  intro b hb
  unfold circuit_calls at hb
  split at hb
  · simp at hb
  · simp only [List.mem_append] at hb
    rcases hb with hb | hb
    · obtain ⟨n, hn, he⟩ := List.mem_filterMap.mp hb
      split at he
      · simp at he
      · cases he
        rfl
    · split at hb
      · obtain ⟨sc, hsc, hb2⟩ := List.mem_flatMap.mp hb
        split at hb2
        · simp at hb2
        · obtain ⟨p, hp, he⟩ := List.mem_filterMap.mp hb2
          repeat' split at he
          all_goals
            first
              | (simp at he; done)
              | (cases he; rfl)
      · simp at hb

theorem circuit_calls_direct (nl : NetlistM) (cmap : List (Nat × Nat))
    (ncp ccp dcp : Option String) (mag dbu : ℚ) (c : CircuitM) (b : BuildCall)
    (hb : b ∈ circuit_calls nl cmap ncp ccp dcp mag dbu c)
    (hd : b.dangling = false) :
    ∃ pm, cmap.find? (fun p => p.1 == c.cell_index) = some pm ∧
      ∃ n ∈ c.nets,
        (ccp.isSome && !(!c.has_parents) && !n.pins.isEmpty) = false ∧
        b = ⟨c.cell_index, false, c.cell_index, n.cluster_id, n.xname, pm.2, ncp,
             mkMag mag⟩ := by
  unfold circuit_calls at hb
  split at hb
  · simp at hb
  · next pm hpm =>
    refine ⟨pm, hpm, ?_⟩
    simp only [List.mem_append] at hb
    rcases hb with hb | hb
    · obtain ⟨n, hn, he⟩ := List.mem_filterMap.mp hb
      refine ⟨n, hn, ?_, ?_⟩
      · split at he
        · simp at he
        · next hcond =>
          simpa using hcond
      · split at he
        · simp at he
        · cases he
          rfl
    · exfalso
      split at hb
      · obtain ⟨sc, hsc, hb2⟩ := List.mem_flatMap.mp hb
        split at hb2
        · simp at hb2
        · obtain ⟨p, hp, he⟩ := List.mem_filterMap.mp hb2
          repeat' split at he
          all_goals
            first
              | (simp at he; done)
              | (cases he; simp at hd)
      · simp at hb

/-- C3: in recursive mode (`circuit_cell_name_prefix` supplied), a net
of a non-top circuit with a non-zero pin count is not rendered by the
direct net loop of `build_all_nets` into its own circuit's target cell;
a net of the top circuit, or a net with zero pins, is rendered into its
own circuit's target cell. -/
theorem c3_local_child_nets (nl : NetlistM) (cmap : List (Nat × Nat))
    (ncp dcp : Option String) (s : String) (mag dbu : ℚ) (c : CircuitM) (n : NetM)
    (pm : Nat × Nat)
    (hc : c ∈ nl.circuits)
    (hnodup : (nl.circuits.map (fun x => x.cell_index)).Nodup)
    (hm : cmap.find? (fun p => p.1 == c.cell_index) = some pm)
    (hn : n ∈ c.nets)
    (hkey : ∀ n' ∈ c.nets, n'.cluster_id = n.cluster_id → n' = n) :
    (c.has_parents = true → n.pins ≠ [] →
      ∀ b ∈ build_all_nets_calls nl cmap ncp (some s) dcp mag dbu,
        b.origin = c.cell_index → b.dangling = false → b.src_cid ≠ n.cluster_id) ∧
    ((c.has_parents = false ∨ n.pins = []) →
      (⟨c.cell_index, false, c.cell_index, n.cluster_id, n.xname, pm.2, ncp,
        mkMag mag⟩ : BuildCall) ∈ build_all_nets_calls nl cmap ncp (some s) dcp mag dbu) := by
  constructor
  · intro hp hpins b hb hob hdb hcid
    obtain ⟨c', hc', hbc⟩ := List.mem_flatMap.mp hb
    have ho' := circuit_calls_origin nl cmap ncp (some s) dcp mag dbu c' b hbc
    have hceq : c' = c := by
      refine List.inj_on_of_nodup_map hnodup hc' hc ?_
      rw [ho'.symm, hob]
    subst hceq
    obtain ⟨pm', hpm', n', hn', hcond, hbe⟩ :=
      circuit_calls_direct nl cmap ncp (some s) dcp mag dbu c' b hbc hdb
    have hsrc : n'.cluster_id = n.cluster_id := by
      rw [hbe] at hcid
      simpa using hcid
    have hne : n' = n := hkey n' hn' hsrc
    subst hne
    rw [hp] at hcond
    simp at hcond
    exact hpins (by simpa [List.isEmpty_iff] using hcond)
  · intro hor
    apply List.mem_flatMap.mpr
    refine ⟨c, hc, ?_⟩
    unfold circuit_calls
    rw [hm]
    apply List.mem_append_left
    apply List.mem_filterMap.mpr
    refine ⟨n, hn, ?_⟩
    rcases hor with h | h <;> simp [h]

theorem c3_local_child_nets_witness :
    (∀ b ∈ build_all_nets_calls nl3 cmap3 (some "N") (some "C") none 1 1,
      b.origin = 1 → b.dangling = false → b.src_cid ≠ 9) ∧
    (⟨0, false, 0, 2, "top", 100, some "N", mkMag 1⟩ : BuildCall) ∈
      build_all_nets_calls nl3 cmap3 (some "N") (some "C") none 1 1 := by
  have hkey1 : ∀ n' ∈ circL3.nets, n'.cluster_id = netL3.cluster_id → n' = netL3 := by
    intro n' h' _
    simpa [circL3] using h'
  have hkey2 : ∀ n' ∈ circT3.nets, n'.cluster_id = netT3.cluster_id → n' = netT3 := by
    intro n' h' _
    simpa [circT3] using h'
  have h1 := c3_local_child_nets nl3 cmap3 (some "N") none "C" 1 1 circL3 netL3
    (1, 101) (by simp [nl3]) (by simp [nl3, circT3, circL3]) (by decide)
    (by decide) hkey1
  have h2 := c3_local_child_nets nl3 cmap3 (some "N") none "C" 1 1 circT3 netT3
    (0, 100) (by simp [nl3]) (by simp [nl3, circT3, circL3]) (by decide)
    (by decide) hkey2
  constructor
  · intro b hb hob hdb
    have hx := h1.1 (by decide) (by decide) b hb hob hdb
    simpa [netL3] using hx
  · have hx := h2.2 (Or.inl (by decide))
    simpa [circT3, netT3] using hx

/-- C7: in recursive mode, for every subcircuit pin with no parent-side
net but an existing child-side net, `build_all_nets` renders the
child-side net into the calling circuit's target cell, under the
net-cell stem `net_cell_name_prefix ++ subcircuit.expanded_name ++ ":"`
(so the net cell is named stem plus the child net's expanded name) and
with the subcircuit's dbu-compensated, magnification-adjusted
transform. -/
theorem c7_dangling_pins (nl : NetlistM) (cmap : List (Nat × Nat))
    (dcp : Option String) (pfx s : String) (mag dbu : ℚ)
    (c : CircuitM) (sc : SubCM) (rc : CircuitM) (p : Nat) (q : Nat × Nat) (n : NetM)
    (pm : Nat × Nat)
    (hc : c ∈ nl.circuits)
    (hm : cmap.find? (fun x => x.1 == c.cell_index) = some pm)
    (hsc : sc ∈ c.subcircuits)
    (hrc : circuit_by_cell_index nl sc.ref_cell = some rc)
    (hp : p ∈ rc.pins)
    (hnoparent : sc.pin_nets.find? (fun x => x.1 == p) = none)
    (hchild : rc.pin_nets.find? (fun x => x.1 == p) = some q)
    (hnet : net_by_cluster_id rc q.2 = some n) :
    (⟨c.cell_index, true, rc.cell_index, n.cluster_id, n.xname, pm.2,
      some (pfx ++ sc.xname ++ ":"),
      (mkMag mag).mul (dbuDown dbu sc.strans)⟩ : BuildCall) ∈
      build_all_nets_calls nl cmap (some pfx) (some s) dcp mag dbu := by
  apply List.mem_flatMap.mpr
  refine ⟨c, hc, ?_⟩
  unfold circuit_calls
  rw [hm]
  apply List.mem_append_right
  simp only [Option.isSome_some, if_true]
  apply List.mem_flatMap.mpr
  refine ⟨sc, hsc, ?_⟩
  rw [hrc]
  apply List.mem_filterMap.mpr
  refine ⟨p, hp, ?_⟩
  simp only [hnoparent, hchild, hnet, Option.isSome_none, Bool.false_eq_true, if_false]

theorem c7_dangling_pins_witness :
    (⟨0, true, 1, 9, "loc", 100, some "Nsc1:", ICplxTrans.one⟩ : BuildCall) ∈
      build_all_nets_calls nl3 cmap3 (some "N") (some "C") none 1 1 := by
  have hx := c7_dangling_pins nl3 cmap3 none "N" "C" 1 1 circT3
    ⟨"sc1", ICplxTrans.one, 1, []⟩ circL3 4 (4, 9) netL3 (0, 100)
    (by simp [nl3]) (by decide) (by simp [circT3])
    (by simp [circuit_by_cell_index, nl3, circT3, circL3]) (by decide) rfl
    (by decide) (by decide)
  rw [dbuDown_one, mkMag_one_eq, one_mul_t] at hx
  exact hx

/-- The claim of C2 fails on the code: with a net-cell stem supplied but
no circuit-cell stem, a cluster with an instance-boundary connection
and no shapes on any mapped layer is elided — no net cell is created
and nothing is inserted — although the claim requires a net cell. -/
theorem c2_counterexample :
    connsOf cl2 5 1 ≠ [] ∧
    build_net_rec cl2 none (fun _ => "") [(0, some 0)] none none 3 5 1 tgt2 0
      (some net2) (some "N") [] (mkMag 1) = (tgt2, []) := by
  constructor
  · decide
  · decide

theorem bnrStep_hit (nl? : Option NetlistM) (cn : Nat → String) (ccp dcp : Option String)
    (rec : Nat → Nat → Target → Nat → CMap → Target × CMap)
    (tcell : Nat) (twm tm : ICplxTrans) (acc : Target × CMap) (c : ConnM)
    (e : (Nat × Nat) × Option Nat)
    (hf : acc.2.find? (fun x => x.1 == (c.inst_cell, c.child_id)) = some e) :
    bnrStep nl? cn ccp dcp rec tcell twm tm acc c =
      match e.2 with
      | some tci =>
        (insert_inst acc.1 tcell tci (transform_into (twm.mul c.inst_tr) tm), acc.2)
      | none => (acc.1, acc.2) := by
  simp only [bnrStep]
  rw [hf]

theorem bnrStep_new_kept (nl? : Option NetlistM) (cn : Nat → String)
    (ccp dcp : Option String)
    (rec : Nat → Nat → Target → Nat → CMap → Target × CMap)
    (tcell : Nat) (twm tm : ICplxTrans) (acc : Target × CMap) (c : ConnM) (pfx : String)
    (hf : acc.2.find? (fun x => x.1 == (c.inst_cell, c.child_id)) = none)
    (hnp : (if isDeviceCell nl? c.inst_cell then dcp else ccp) = some pfx) :
    bnrStep nl? cn ccp dcp rec tcell twm tm acc c =
      (insert_inst
        (rec c.inst_cell c.child_id
          (add_cell acc.1 (pfx ++ cn c.inst_cell)).2
          (add_cell acc.1 (pfx ++ cn c.inst_cell)).1
          (((c.inst_cell, c.child_id), some (add_cell acc.1 (pfx ++ cn c.inst_cell)).1)
            :: acc.2)).1
        tcell (add_cell acc.1 (pfx ++ cn c.inst_cell)).1
        (transform_into (twm.mul c.inst_tr) tm),
       (rec c.inst_cell c.child_id
          (add_cell acc.1 (pfx ++ cn c.inst_cell)).2
          (add_cell acc.1 (pfx ++ cn c.inst_cell)).1
          (((c.inst_cell, c.child_id), some (add_cell acc.1 (pfx ++ cn c.inst_cell)).1)
            :: acc.2)).2) := by
  simp only [bnrStep]
  rw [hf, hnp]

theorem bnrStep_new_purged (nl? : Option NetlistM) (cn : Nat → String)
    (ccp dcp : Option String)
    (rec : Nat → Nat → Target → Nat → CMap → Target × CMap)
    (tcell : Nat) (twm tm : ICplxTrans) (acc : Target × CMap) (c : ConnM)
    (hf : acc.2.find? (fun x => x.1 == (c.inst_cell, c.child_id)) = none)
    (hnp : (if isDeviceCell nl? c.inst_cell then dcp else ccp) = none) :
    bnrStep nl? cn ccp dcp rec tcell twm tm acc c =
      (acc.1, ((c.inst_cell, c.child_id), none) :: acc.2) := by
  simp only [bnrStep]
  rw [hf, hnp]

theorem deliverLayers_skeleton (cl : Clusters) (nl? : Option NetlistM)
    (lmap : List (Nat × Option Nat)) (ci cid tcell : Nat) (tr : ICplxTrans) (fuel : Nat) :
    ∀ s : Target,
      (deliverLayers cl nl? lmap ci cid tcell tr fuel s).cells = s.cells ∧
      (deliverLayers cl nl? lmap ci cid tcell tr fuel s).insts = s.insts ∧
      (deliverLayers cl nl? lmap ci cid tcell tr fuel s).next_cell = s.next_cell := by
  unfold deliverLayers
  induction lmap with
  | nil =>
    intro s
    exact ⟨rfl, rfl, rfl⟩
  | cons l rest ih =>
    intro s
    simp only [List.foldl_cons]
    cases l.2 with
    | none => exact ih _
    | some sl => exact ih _

theorem foldl_rel {α β : Type} (R : α → α → Prop) (step : α → β → α) (l : List β)
    (hrefl : ∀ a, R a a) (htrans : ∀ a b c, R a b → R b c → R a c)
    (hstep : ∀ a b, b ∈ l → R a (step a b)) :
    ∀ a : α, R a (l.foldl step a) := by
  induction l with
  | nil =>
    intro a
    exact hrefl a
  | cons x xs ih =>
    intro a
    refine htrans _ _ _ (hstep a x (by simp)) ?_
    exact ih (fun a b hb => hstep a b (by simp [hb])) (step a x)

theorem connsOf_sub (cl : Clusters) (ci cid : Nat) (c : ConnM)
    (hc : c ∈ connsOf cl ci cid) : ∃ e ∈ cl, c ∈ e.conns := by
  unfold connsOf at hc
  split at hc
  · next e hf =>
    exact ⟨e, List.mem_of_find?_eq_some hf, hc⟩
  · simp at hc

theorem build_net_rec_none_eq (cl : Clusters) (nl? : Option NetlistM) (cn : Nat → String)
    (lmap : List (Nat × Option Nat)) (ccp dcp : Option String) (f ci cid : Nat)
    (st : Target) (tc : Nat) (net? : Option NetM) (cmap : CMap) (tr : ICplxTrans) :
    build_net_rec cl nl? cn lmap ccp dcp (f + 1) ci cid st tc net? none cmap tr =
      if ccp.isNone && dcp.isNone then
        (deliverLayers cl nl? lmap ci cid tc tr (f + 1) st, cmap)
      else
        (connsOf cl ci cid).foldl
          (bnrStep nl? cn ccp dcp
            (fun a b s t m =>
              build_net_rec cl nl? cn lmap ccp dcp f a b s t none none m (trMag tr))
            tc (trWoMag tr) (trMag tr))
          (deliverLayers cl nl? lmap ci cid tc tr (f + 1) st, cmap) := by
  simp only [build_net_rec]

theorem build_net_rec_elide_eq (cl : Clusters) (nl? : Option NetlistM) (cn : Nat → String)
    (lmap : List (Nat × Option Nat)) (ccp dcp : Option String) (f ci cid : Nat)
    (st : Target) (tc : Nat) (net? : Option NetM) (p : String) (cmap : CMap)
    (tr : ICplxTrans)
    (hD : (!(ccp.isSome && !(connsOf cl ci cid).isEmpty) &&
      !anyShapes cl nl? lmap ci cid tr (f + 1)) = true) :
    build_net_rec cl nl? cn lmap ccp dcp (f + 1) ci cid st tc net? (some p) cmap tr =
      (st, cmap) := by
  simp only [build_net_rec, hD, if_true]

theorem build_net_rec_make_eq (cl : Clusters) (nl? : Option NetlistM) (cn : Nat → String)
    (lmap : List (Nat × Option Nat)) (ccp dcp : Option String) (f ci cid : Nat)
    (st : Target) (tc : Nat) (net? : Option NetM) (p : String) (cmap : CMap)
    (tr : ICplxTrans)
    (hD : ¬ ((!(ccp.isSome && !(connsOf cl ci cid).isEmpty) &&
      !anyShapes cl nl? lmap ci cid tr (f + 1)) = true)) :
    build_net_rec cl nl? cn lmap ccp dcp (f + 1) ci cid st tc net? (some p) cmap tr =
      (if ccp.isNone && dcp.isNone then
        (deliverLayers cl nl? lmap ci cid (add_cell st (p ++ xnameOf net?)).1 tr (f + 1)
          (insert_inst (add_cell st (p ++ xnameOf net?)).2 tc
            (add_cell st (p ++ xnameOf net?)).1 ICplxTrans.one), cmap)
      else
        (connsOf cl ci cid).foldl
          (bnrStep nl? cn ccp dcp
            (fun a b s t m =>
              build_net_rec cl nl? cn lmap ccp dcp f a b s t none none m (trMag tr))
            (add_cell st (p ++ xnameOf net?)).1 (trWoMag tr) (trMag tr))
          (deliverLayers cl nl? lmap ci cid (add_cell st (p ++ xnameOf net?)).1 tr (f + 1)
            (insert_inst (add_cell st (p ++ xnameOf net?)).2 tc
              (add_cell st (p ++ xnameOf net?)).1 ICplxTrans.one), cmap)) := by
  have hD' : (!(ccp.isSome && !(connsOf cl ci cid).isEmpty) &&
      !anyShapes cl nl? lmap ci cid tr (f + 1)) = false := by
    cases hx : (!(ccp.isSome && !(connsOf cl ci cid).isEmpty) &&
      !anyShapes cl nl? lmap ci cid tr (f + 1)) with
    | true => exact absurd hx hD
    | false => rfl
  simp only [build_net_rec, hD', Bool.false_eq_true, if_false]

theorem bnrStep_delta (nl? : Option NetlistM) (cn : Nat → String) (ccp dcp : Option String)
    (rec : Nat → Nat → Target → Nat → CMap → Target × CMap)
    (tcell : Nat) (twm tm : ICplxTrans)
    (hrec : ∀ a b s t m, ∃ Δc Δi,
      (rec a b s t m).1.cells = Δc ++ s.cells ∧
      (rec a b s t m).1.insts = Δi ++ s.insts ∧
      s.next_cell ≤ (rec a b s t m).1.next_cell ∧
      (∀ e ∈ Δi, e.1 = t ∨ s.next_cell ≤ e.1))
    (acc : Target × CMap) (c : ConnM) :
    ∃ Δc Δi,
      (bnrStep nl? cn ccp dcp rec tcell twm tm acc c).1.cells = Δc ++ acc.1.cells ∧
      (bnrStep nl? cn ccp dcp rec tcell twm tm acc c).1.insts = Δi ++ acc.1.insts ∧
      acc.1.next_cell ≤ (bnrStep nl? cn ccp dcp rec tcell twm tm acc c).1.next_cell ∧
      (∀ e ∈ Δi, e.1 = tcell ∨ acc.1.next_cell ≤ e.1) := by
  cases hf : acc.2.find? (fun x => x.1 == (c.inst_cell, c.child_id)) with
  | some e =>
    rw [bnrStep_hit nl? cn ccp dcp rec tcell twm tm acc c e hf]
    cases he : e.2 with
    | some tci =>
      refine ⟨[], [(tcell, tci, transform_into (twm.mul c.inst_tr) tm)], rfl, rfl,
        le_refl _, ?_⟩
      intro x hx
      rw [List.mem_singleton.mp hx]
      exact Or.inl rfl
    | none =>
      exact ⟨[], [], rfl, rfl, le_refl _, by simp⟩
  | none =>
    cases hnp : (if isDeviceCell nl? c.inst_cell then dcp else ccp) with
    | some pfx =>
      rw [bnrStep_new_kept nl? cn ccp dcp rec tcell twm tm acc c pfx hf hnp]
      obtain ⟨Δc, Δi, h1, h2, h3, h4⟩ := hrec c.inst_cell c.child_id
        (add_cell acc.1 (pfx ++ cn c.inst_cell)).2
        (add_cell acc.1 (pfx ++ cn c.inst_cell)).1
        (((c.inst_cell, c.child_id), some (add_cell acc.1 (pfx ++ cn c.inst_cell)).1)
          :: acc.2)
      refine ⟨Δc ++ [(acc.1.next_cell, pfx ++ cn c.inst_cell)],
        (tcell, (add_cell acc.1 (pfx ++ cn c.inst_cell)).1,
          transform_into (twm.mul c.inst_tr) tm) :: Δi, ?_, ?_, ?_, ?_⟩
      · show (rec c.inst_cell c.child_id _ _ _).1.cells = _
        rw [h1]
        show Δc ++ ((acc.1.next_cell, pfx ++ cn c.inst_cell) :: acc.1.cells) = _
        rw [List.append_cons]
      · show (tcell, (add_cell acc.1 (pfx ++ cn c.inst_cell)).1,
            transform_into (twm.mul c.inst_tr) tm) ::
            (rec c.inst_cell c.child_id _ _ _).1.insts = _
        rw [h2]
        rfl
      · show acc.1.next_cell ≤ (rec c.inst_cell c.child_id _ _ _).1.next_cell
        exact le_trans (Nat.le_succ _) h3
      · intro x hx
        rcases List.mem_cons.mp hx with hx | hx
        · rw [hx]
          exact Or.inl rfl
        · rcases h4 x hx with hx1 | hx1
          · right
            rw [hx1]
            exact le_refl _
          · right
            exact le_trans (Nat.le_succ _) hx1
    | none =>
      rw [bnrStep_new_purged nl? cn ccp dcp rec tcell twm tm acc c hf hnp]
      exact ⟨[], [], rfl, rfl, le_refl _, by simp⟩

theorem build_net_rec_delta (cl : Clusters) (nl? : Option NetlistM) (cn : Nat → String)
    (lmap : List (Nat × Option Nat)) (ccp dcp : Option String) :
    ∀ (fuel ci cid : Nat) (st : Target) (tc : Nat) (net? : Option NetM)
      (ncp : Option String) (cmap : CMap) (tr : ICplxTrans),
      ∃ Δc Δi,
        (build_net_rec cl nl? cn lmap ccp dcp fuel ci cid st tc net? ncp cmap tr).1.cells
          = Δc ++ st.cells ∧
        (build_net_rec cl nl? cn lmap ccp dcp fuel ci cid st tc net? ncp cmap tr).1.insts
          = Δi ++ st.insts ∧
        st.next_cell ≤
          (build_net_rec cl nl? cn lmap ccp dcp fuel ci cid st tc net? ncp cmap tr).1.next_cell ∧
        (∀ e ∈ Δi, e.1 = tc ∨ st.next_cell ≤ e.1) := by
  intro fuel
  induction fuel with
  | zero =>
    intro ci cid st tc net? ncp cmap tr
    exact ⟨[], [], rfl, rfl, le_refl _, by simp⟩
  | succ f ih =>
    intro ci cid st tc net? ncp cmap tr
    have hfold : ∀ (tcell : Nat) (s0 : Target) (cm0 : CMap),
        ∃ Δc Δi,
          ((connsOf cl ci cid).foldl
            (bnrStep nl? cn ccp dcp
              (fun a b s t m =>
                build_net_rec cl nl? cn lmap ccp dcp f a b s t none none m (trMag tr))
              tcell (trWoMag tr) (trMag tr)) (s0, cm0)).1.cells = Δc ++ s0.cells ∧
          ((connsOf cl ci cid).foldl
            (bnrStep nl? cn ccp dcp
              (fun a b s t m =>
                build_net_rec cl nl? cn lmap ccp dcp f a b s t none none m (trMag tr))
              tcell (trWoMag tr) (trMag tr)) (s0, cm0)).1.insts = Δi ++ s0.insts ∧
          s0.next_cell ≤
            ((connsOf cl ci cid).foldl
              (bnrStep nl? cn ccp dcp
                (fun a b s t m =>
                  build_net_rec cl nl? cn lmap ccp dcp f a b s t none none m (trMag tr))
                tcell (trWoMag tr) (trMag tr)) (s0, cm0)).1.next_cell ∧
          (∀ e ∈ Δi, e.1 = tcell ∨ s0.next_cell ≤ e.1) := by
      intro tcell s0 cm0
      refine foldl_rel
        (fun a b => ∃ Δc Δi, b.1.cells = Δc ++ a.1.cells ∧ b.1.insts = Δi ++ a.1.insts ∧
          a.1.next_cell ≤ b.1.next_cell ∧ (∀ e ∈ Δi, e.1 = tcell ∨ a.1.next_cell ≤ e.1))
        _ _ ?_ ?_ ?_ (s0, cm0)
      · intro a
        exact ⟨[], [], rfl, rfl, le_refl _, by simp⟩
      · intro a b c ⟨Δc1, Δi1, h1, h2, h3, h4⟩ ⟨Δc2, Δi2, g1, g2, g3, g4⟩
        refine ⟨Δc2 ++ Δc1, Δi2 ++ Δi1, ?_, ?_, le_trans h3 g3, ?_⟩
        · rw [g1, h1, List.append_assoc]
        · rw [g2, h2, List.append_assoc]
        · intro e he
          rcases List.mem_append.mp he with he | he
          · rcases g4 e he with hh | hh
            · exact Or.inl hh
            · exact Or.inr (le_trans h3 hh)
          · exact h4 e he
      · intro a c _
        exact bnrStep_delta nl? cn ccp dcp _ tcell (trWoMag tr) (trMag tr)
          (fun a b s t m => ih a b s t none none m (trMag tr)) a c
    cases ncp with
    | none =>
      rw [build_net_rec_none_eq]
      by_cases hcd : (ccp.isNone && dcp.isNone) = true
      · rw [if_pos hcd]
        obtain ⟨hc1, hc2, hc3⟩ :=
          deliverLayers_skeleton cl nl? lmap ci cid tc tr (f + 1) st
        exact ⟨[], [], by simp [hc1], by simp [hc2], by simp [hc3], by simp⟩
      · rw [if_neg hcd]
        obtain ⟨Δc, Δi, h1, h2, h3, h4⟩ := hfold tc
          (deliverLayers cl nl? lmap ci cid tc tr (f + 1) st) cmap
        obtain ⟨hc1, hc2, hc3⟩ :=
          deliverLayers_skeleton cl nl? lmap ci cid tc tr (f + 1) st
        refine ⟨Δc, Δi, ?_, ?_, ?_, ?_⟩
        · rw [h1, hc1]
        · rw [h2, hc2]
        · rw [← hc3]
          exact h3
        · intro e he
          rcases h4 e he with hh | hh
          · exact Or.inl hh
          · right
            rw [← hc3]
            exact hh
    | some p =>
      by_cases hD : (!(ccp.isSome && !(connsOf cl ci cid).isEmpty) &&
          !anyShapes cl nl? lmap ci cid tr (f + 1)) = true
      · rw [build_net_rec_elide_eq cl nl? cn lmap ccp dcp f ci cid st tc net? p cmap tr hD]
        exact ⟨[], [], rfl, rfl, le_refl _, by simp⟩
      · rw [build_net_rec_make_eq cl nl? cn lmap ccp dcp f ci cid st tc net? p cmap tr hD]
        have hst1c : (insert_inst (add_cell st (p ++ xnameOf net?)).2 tc
            (add_cell st (p ++ xnameOf net?)).1 ICplxTrans.one).cells =
            (st.next_cell, p ++ xnameOf net?) :: st.cells := rfl
        have hst1i : (insert_inst (add_cell st (p ++ xnameOf net?)).2 tc
            (add_cell st (p ++ xnameOf net?)).1 ICplxTrans.one).insts =
            (tc, st.next_cell, ICplxTrans.one) :: st.insts := rfl
        have hst1n : (insert_inst (add_cell st (p ++ xnameOf net?)).2 tc
            (add_cell st (p ++ xnameOf net?)).1 ICplxTrans.one).next_cell =
            st.next_cell + 1 := rfl
        by_cases hcd : (ccp.isNone && dcp.isNone) = true
        · rw [if_pos hcd]
          obtain ⟨hc1, hc2, hc3⟩ :=
            deliverLayers_skeleton cl nl? lmap ci cid
              (add_cell st (p ++ xnameOf net?)).1 tr (f + 1)
              (insert_inst (add_cell st (p ++ xnameOf net?)).2 tc
                (add_cell st (p ++ xnameOf net?)).1 ICplxTrans.one)
          refine ⟨[(st.next_cell, p ++ xnameOf net?)],
            [(tc, st.next_cell, ICplxTrans.one)], ?_, ?_, ?_, ?_⟩
          · show (deliverLayers _ _ _ _ _ _ _ _ _).cells = _
            rw [hc1, hst1c]
            rfl
          · show (deliverLayers _ _ _ _ _ _ _ _ _).insts = _
            rw [hc2, hst1i]
            rfl
          · show st.next_cell ≤ (deliverLayers _ _ _ _ _ _ _ _ _).next_cell
            rw [hc3, hst1n]
            exact Nat.le_succ _
          · intro e he
            rw [List.mem_singleton.mp he]
            exact Or.inl rfl
        · rw [if_neg hcd]
          obtain ⟨Δc, Δi, h1, h2, h3, h4⟩ := hfold (add_cell st (p ++ xnameOf net?)).1
            (deliverLayers cl nl? lmap ci cid
              (add_cell st (p ++ xnameOf net?)).1 tr (f + 1)
              (insert_inst (add_cell st (p ++ xnameOf net?)).2 tc
                (add_cell st (p ++ xnameOf net?)).1 ICplxTrans.one)) cmap
          obtain ⟨hc1, hc2, hc3⟩ :=
            deliverLayers_skeleton cl nl? lmap ci cid
              (add_cell st (p ++ xnameOf net?)).1 tr (f + 1)
              (insert_inst (add_cell st (p ++ xnameOf net?)).2 tc
                (add_cell st (p ++ xnameOf net?)).1 ICplxTrans.one)
          refine ⟨Δc ++ [(st.next_cell, p ++ xnameOf net?)],
            Δi ++ [(tc, st.next_cell, ICplxTrans.one)], ?_, ?_, ?_, ?_⟩
          · rw [h1, hc1, hst1c, List.append_cons]
          · rw [h2, hc2, hst1i, List.append_cons]
          · rw [hc3, hst1n] at h3
            exact le_trans (Nat.le_succ _) h3
          · intro e he
            rcases List.mem_append.mp he with he | he
            · rcases h4 e he with hh | hh
              · right
                rw [hh]
                exact le_refl _
              · right
                rw [hc3, hst1n] at hh
                exact le_trans (Nat.le_succ _) hh
            · rw [List.mem_singleton.mp he]
              exact Or.inl rfl

/-- C2 (amended): with a net-cell stem supplied, `build_net_rec` elides
the net cell exactly when the cluster delivers no shape on any mapped
layer and no instance-boundary connection is counted — connections
count toward creation only when `circuit_cell_name_prefix` is also
supplied; on elision the target layout and memoization map are left
untouched.  Otherwise a dedicated cell named
`stem ++ net->expanded_name ()` is created and instanced exactly once
into the target cell. -/
theorem c2_net_cell_elision (cl : Clusters) (nl? : Option NetlistM) (cn : Nat → String)
    (lmap : List (Nat × Option Nat)) (ccp dcp : Option String) (fuel ci cid : Nat)
    (st : Target) (tc : Nat) (net? : Option NetM) (p : String) (cmap : CMap)
    (tr : ICplxTrans) (htc : tc < st.next_cell) :
    (((ccp.isSome && !(connsOf cl ci cid).isEmpty) ||
        anyShapes cl nl? lmap ci cid tr (fuel + 1)) = false →
      build_net_rec cl nl? cn lmap ccp dcp (fuel + 1) ci cid st tc net? (some p) cmap tr
        = (st, cmap)) ∧
    (((ccp.isSome && !(connsOf cl ci cid).isEmpty) ||
        anyShapes cl nl? lmap ci cid tr (fuel + 1)) = true →
      (st.next_cell, p ++ xnameOf net?) ∈
        (build_net_rec cl nl? cn lmap ccp dcp (fuel + 1) ci cid st tc net?
          (some p) cmap tr).1.cells ∧
      (build_net_rec cl nl? cn lmap ccp dcp (fuel + 1) ci cid st tc net?
          (some p) cmap tr).1.insts.filter (fun e => e.1 == tc) =
        (tc, st.next_cell, ICplxTrans.one) ::
          st.insts.filter (fun e => e.1 == tc)) := by
  constructor
  · intro hfalse
    rw [Bool.or_eq_false_iff] at hfalse
    exact build_net_rec_elide_eq cl nl? cn lmap ccp dcp fuel ci cid st tc net? p cmap tr
      (by simp [hfalse.1, hfalse.2])
  · intro htrue
    have hD : ¬ ((!(ccp.isSome && !(connsOf cl ci cid).isEmpty) &&
        !anyShapes cl nl? lmap ci cid tr (fuel + 1)) = true) := by
      rcases Bool.or_eq_true_iff.mp htrue with h | h <;> simp [h]
    rw [build_net_rec_make_eq cl nl? cn lmap ccp dcp fuel ci cid st tc net? p cmap tr hD]
    have hst1c : (insert_inst (add_cell st (p ++ xnameOf net?)).2 tc
        (add_cell st (p ++ xnameOf net?)).1 ICplxTrans.one).cells =
        (st.next_cell, p ++ xnameOf net?) :: st.cells := rfl
    have hst1i : (insert_inst (add_cell st (p ++ xnameOf net?)).2 tc
        (add_cell st (p ++ xnameOf net?)).1 ICplxTrans.one).insts =
        (tc, st.next_cell, ICplxTrans.one) :: st.insts := rfl
    have hst1n : (insert_inst (add_cell st (p ++ xnameOf net?)).2 tc
        (add_cell st (p ++ xnameOf net?)).1 ICplxTrans.one).next_cell =
        st.next_cell + 1 := rfl
    obtain ⟨hc1, hc2, hc3⟩ :=
      deliverLayers_skeleton cl nl? lmap ci cid
        (add_cell st (p ++ xnameOf net?)).1 tr (fuel + 1)
        (insert_inst (add_cell st (p ++ xnameOf net?)).2 tc
          (add_cell st (p ++ xnameOf net?)).1 ICplxTrans.one)
    by_cases hcd : (ccp.isNone && dcp.isNone) = true
    · rw [if_pos hcd]
      constructor
      · show _ ∈ (deliverLayers _ _ _ _ _ _ _ _ _).cells
        rw [hc1, hst1c]
        exact List.mem_cons_self _ _
      · show (deliverLayers _ _ _ _ _ _ _ _ _).insts.filter _ = _
        rw [hc2, hst1i]
        simp [List.filter_cons]
    · rw [if_neg hcd]
      obtain ⟨Δc, Δi, h1, h2, h3, h4⟩ :=
        foldl_rel
          (fun a b => ∃ Δc Δi, b.1.cells = Δc ++ a.1.cells ∧
            b.1.insts = Δi ++ a.1.insts ∧ a.1.next_cell ≤ b.1.next_cell ∧
            (∀ e ∈ Δi, e.1 = (add_cell st (p ++ xnameOf net?)).1 ∨
              a.1.next_cell ≤ e.1))
          _ _
          (fun a => ⟨[], [], rfl, rfl, le_refl _, by simp⟩)
          (by
            intro a b c ⟨Δc1, Δi1, h1, h2, h3, h4⟩ ⟨Δc2, Δi2, g1, g2, g3, g4⟩
            refine ⟨Δc2 ++ Δc1, Δi2 ++ Δi1, ?_, ?_, le_trans h3 g3, ?_⟩
            · rw [g1, h1, List.append_assoc]
            · rw [g2, h2, List.append_assoc]
            · intro e he
              rcases List.mem_append.mp he with he | he
              · rcases g4 e he with hh | hh
                · exact Or.inl hh
                · exact Or.inr (le_trans h3 hh)
              · exact h4 e he)
          (fun a c _ =>
            bnrStep_delta nl? cn ccp dcp _ (add_cell st (p ++ xnameOf net?)).1
              (trWoMag tr) (trMag tr)
              (fun a b s t m =>
                build_net_rec_delta cl nl? cn lmap ccp dcp fuel a b s t none none m
                  (trMag tr)) a c)
          (deliverLayers cl nl? lmap ci cid
            (add_cell st (p ++ xnameOf net?)).1 tr (fuel + 1)
            (insert_inst (add_cell st (p ++ xnameOf net?)).2 tc
              (add_cell st (p ++ xnameOf net?)).1 ICplxTrans.one), cmap)
      constructor
      · rw [h1, hc1, hst1c]
        exact List.mem_append_right _ (List.mem_cons_self _ _)
      · rw [h2, hc2, hst1i, List.filter_append]
        have hnil : Δi.filter (fun e => e.1 == tc) = [] := by
          rw [List.filter_eq_nil_iff]
          intro e he
          have hne : e.1 ≠ tc := by
            rcases h4 e he with hh | hh
            · rw [hh]
              exact fun hcon => absurd (hcon ▸ htc) (lt_irrefl _)
            · rw [hc3, hst1n] at hh
              have : tc < e.1 := lt_of_lt_of_le (Nat.lt_succ_of_lt htc) hh
              exact fun hcon => absurd (hcon ▸ this) (lt_irrefl _)
          simp [hne]
        rw [hnil]
        simp [List.filter_cons]

theorem c2_net_cell_elision_witness :
    (0 < tgt2.next_cell ∧
      (10, "N" ++ net2.xname) ∈
        (build_net_rec cl2b none (fun _ => "") [(0, some 0)] none none 3 5 1 tgt2 0
          (some net2) (some "N") [] (mkMag 1)).1.cells ∧
      (build_net_rec cl2b none (fun _ => "") [(0, some 0)] none none 3 5 1 tgt2 0
          (some net2) (some "N") [] (mkMag 1)).1.insts.filter (fun e => e.1 == 0) =
        [(0, 10, ICplxTrans.one)]) ∧
    build_net_rec cl2 none (fun _ => "") [(0, some 0)] none none 3 5 1 tgt2 0
        (some net2) (some "N") [] (mkMag 1) = (tgt2, []) := by
  have h := c2_net_cell_elision cl2b none (fun _ => "") [(0, some 0)] none none 2 5 1
    tgt2 0 (some net2) "N" [] (mkMag 1) (by decide)
  have h0 := c2_net_cell_elision cl2 none (fun _ => "") [(0, some 0)] none none 2 5 1
    tgt2 0 (some net2) "N" [] (mkMag 1) (by decide)
  exact ⟨⟨by decide, (h.2 (by decide)).1, (h.2 (by decide)).2⟩, h0.1 (by decide)⟩

theorem trWoMag_m (tr : ICplxTrans) (h : tr.m ≠ 0) : (trWoMag tr).m = 1 := by
  simp [trWoMag, ICplxTrans.mul, mkMag, h]

theorem inst_trans_mag (tr c : ICplxTrans) (htr : tr.m ≠ 0) (hc : c.m = 1) :
    (transform_into ((trWoMag tr).mul c) (trMag tr)).m = 1 := by
  simp only [transform_into, trWoMag, trMag, ICplxTrans.mul, ICplxTrans.inv, mkMag, hc]
  field_simp

theorem find?_cons_fresh {l : CMap} {key : Nat × Nat} {w : Option Nat} {k : Nat × Nat}
    {v : (Nat × Nat) × Option Nat}
    (hfresh : l.find? (fun x => x.1 == key) = none)
    (hk : l.find? (fun x => x.1 == k) = some v) :
    (((key, w) :: l).find? (fun x => x.1 == k)) = some v := by
  have hne : (key == k) = false := by
    rw [beq_eq_false_iff_ne]
    intro hcon
    subst hcon
    rw [hfresh] at hk
    exact Option.noConfusion hk
  rw [List.find?_cons]
  simp only [hne]
  exact hk

theorem nodup_cons_fresh {l : CMap} {key : Nat × Nat} {w : Option Nat}
    (hfresh : l.find? (fun x => x.1 == key) = none)
    (hnd : (l.map (fun x => x.1)).Nodup) :
    ((((key, w) :: l).map (fun x => x.1)).Nodup) := by
  simp only [List.map_cons]
  refine List.Nodup.cons ?_ hnd
  intro hmem
  obtain ⟨x, hx, hxe⟩ := List.mem_map.mp hmem
  have := List.find?_eq_none.mp hfresh x hx
  simp [hxe] at this

theorem bnrStep_cmap (nl? : Option NetlistM) (cn : Nat → String) (ccp dcp : Option String)
    (rec : Nat → Nat → Target → Nat → CMap → Target × CMap)
    (tcell : Nat) (twm tm : ICplxTrans)
    (hrec : ∀ a b s t m,
      (∀ k v, m.find? (fun x => x.1 == k) = some v →
        (rec a b s t m).2.find? (fun x => x.1 == k) = some v) ∧
      ((m.map (fun x => x.1)).Nodup → ((rec a b s t m).2.map (fun x => x.1)).Nodup))
    (acc : Target × CMap) (c : ConnM) :
    (∀ k v, acc.2.find? (fun x => x.1 == k) = some v →
      (bnrStep nl? cn ccp dcp rec tcell twm tm acc c).2.find? (fun x => x.1 == k) = some v) ∧
    ((acc.2.map (fun x => x.1)).Nodup →
      ((bnrStep nl? cn ccp dcp rec tcell twm tm acc c).2.map (fun x => x.1)).Nodup) := by
  cases hf : acc.2.find? (fun x => x.1 == (c.inst_cell, c.child_id)) with
  | some e =>
    rw [bnrStep_hit nl? cn ccp dcp rec tcell twm tm acc c e hf]
    cases e.2 with
    | some tci => exact ⟨fun k v hk => hk, fun h => h⟩
    | none => exact ⟨fun k v hk => hk, fun h => h⟩
  | none =>
    cases hnp : (if isDeviceCell nl? c.inst_cell then dcp else ccp) with
    | some pfx =>
      rw [bnrStep_new_kept nl? cn ccp dcp rec tcell twm tm acc c pfx hf hnp]
      constructor
      · intro k v hk
        exact (hrec _ _ _ _ _).1 k v (find?_cons_fresh hf hk)
      · intro hnd
        exact (hrec _ _ _ _ _).2 (nodup_cons_fresh hf hnd)
    | none =>
      rw [bnrStep_new_purged nl? cn ccp dcp rec tcell twm tm acc c hf hnp]
      constructor
      · intro k v hk
        exact find?_cons_fresh hf hk
      · intro hnd
        exact nodup_cons_fresh hf hnd

theorem build_net_rec_cmap (cl : Clusters) (nl? : Option NetlistM) (cn : Nat → String)
    (lmap : List (Nat × Option Nat)) (ccp dcp : Option String) :
    ∀ (fuel ci cid : Nat) (st : Target) (tc : Nat) (net? : Option NetM)
      (ncp : Option String) (cmap : CMap) (tr : ICplxTrans),
      (∀ k v, cmap.find? (fun x => x.1 == k) = some v →
        (build_net_rec cl nl? cn lmap ccp dcp fuel ci cid st tc net? ncp cmap tr).2.find?
          (fun x => x.1 == k) = some v) ∧
      ((cmap.map (fun x => x.1)).Nodup →
        ((build_net_rec cl nl? cn lmap ccp dcp fuel ci cid st tc net? ncp cmap tr).2.map
          (fun x => x.1)).Nodup) := by
  intro fuel
  induction fuel with
  | zero =>
    intro ci cid st tc net? ncp cmap tr
    exact ⟨fun k v hk => hk, fun h => h⟩
  | succ f ih =>
    intro ci cid st tc net? ncp cmap tr
    have hfold : ∀ (tcell : Nat) (s0 : Target) (cm0 : CMap),
        (∀ k v, cm0.find? (fun x => x.1 == k) = some v →
          ((connsOf cl ci cid).foldl
            (bnrStep nl? cn ccp dcp
              (fun a b s t m =>
                build_net_rec cl nl? cn lmap ccp dcp f a b s t none none m (trMag tr))
              tcell (trWoMag tr) (trMag tr)) (s0, cm0)).2.find?
            (fun x => x.1 == k) = some v) ∧
        ((cm0.map (fun x => x.1)).Nodup →
          (((connsOf cl ci cid).foldl
            (bnrStep nl? cn ccp dcp
              (fun a b s t m =>
                build_net_rec cl nl? cn lmap ccp dcp f a b s t none none m (trMag tr))
              tcell (trWoMag tr) (trMag tr)) (s0, cm0)).2.map
            (fun x => x.1)).Nodup) := by
      intro tcell s0 cm0
      refine foldl_rel
        (fun a b =>
          (∀ k v, a.2.find? (fun x => x.1 == k) = some v →
            b.2.find? (fun x => x.1 == k) = some v) ∧
          ((a.2.map (fun x => x.1)).Nodup → (b.2.map (fun x => x.1)).Nodup))
        _ _ ?_ ?_ ?_ (s0, cm0)
      · intro a
        exact ⟨fun k v hk => hk, fun h => h⟩
      · intro a b c ⟨h1, h2⟩ ⟨g1, g2⟩
        exact ⟨fun k v hk => g1 k v (h1 k v hk), fun h => g2 (h2 h)⟩
      · intro a c _
        exact bnrStep_cmap nl? cn ccp dcp _ tcell (trWoMag tr) (trMag tr)
          (fun a b s t m => ih a b s t none none m (trMag tr)) a c
    cases ncp with
    | none =>
      rw [build_net_rec_none_eq]
      by_cases hcd : (ccp.isNone && dcp.isNone) = true
      · rw [if_pos hcd]
        exact ⟨fun k v hk => hk, fun h => h⟩
      · rw [if_neg hcd]
        exact hfold tc (deliverLayers cl nl? lmap ci cid tc tr (f + 1) st) cmap
    | some p =>
      by_cases hD : (!(ccp.isSome && !(connsOf cl ci cid).isEmpty) &&
          !anyShapes cl nl? lmap ci cid tr (f + 1)) = true
      · rw [build_net_rec_elide_eq cl nl? cn lmap ccp dcp f ci cid st tc net? p cmap tr hD]
        exact ⟨fun k v hk => hk, fun h => h⟩
      · rw [build_net_rec_make_eq cl nl? cn lmap ccp dcp f ci cid st tc net? p cmap tr hD]
        by_cases hcd : (ccp.isNone && dcp.isNone) = true
        · rw [if_pos hcd]
          exact ⟨fun k v hk => hk, fun h => h⟩
        · rw [if_neg hcd]
          exact hfold (add_cell st (p ++ xnameOf net?)).1
            (deliverLayers cl nl? lmap ci cid
              (add_cell st (p ++ xnameOf net?)).1 tr (f + 1)
              (insert_inst (add_cell st (p ++ xnameOf net?)).2 tc
                (add_cell st (p ++ xnameOf net?)).1 ICplxTrans.one)) cmap

theorem bnrStep_mag (nl? : Option NetlistM) (cn : Nat → String) (ccp dcp : Option String)
    (rec : Nat → Nat → Target → Nat → CMap → Target × CMap)
    (tcell : Nat) (tr : ICplxTrans) (htr : tr.m ≠ 0)
    (hrec : ∀ a b s t m, ∀ e ∈ (rec a b s t m).1.insts, e ∈ s.insts ∨ (e.2.2).m = 1)
    (acc : Target × CMap) (c : ConnM) (hcm : c.inst_tr.m = 1) :
    ∀ e ∈ (bnrStep nl? cn ccp dcp rec tcell (trWoMag tr) (trMag tr) acc c).1.insts,
      e ∈ acc.1.insts ∨ (e.2.2).m = 1 := by
  cases hf : acc.2.find? (fun x => x.1 == (c.inst_cell, c.child_id)) with
  | some e0 =>
    rw [bnrStep_hit nl? cn ccp dcp rec tcell (trWoMag tr) (trMag tr) acc c e0 hf]
    cases e0.2 with
    | some tci =>
      intro e he
      rcases List.mem_cons.mp he with he | he
      · right
        rw [he]
        exact inst_trans_mag tr c.inst_tr htr hcm
      · exact Or.inl he
    | none =>
      intro e he
      exact Or.inl he
  | none =>
    cases hnp : (if isDeviceCell nl? c.inst_cell then dcp else ccp) with
    | some pfx =>
      rw [bnrStep_new_kept nl? cn ccp dcp rec tcell (trWoMag tr) (trMag tr) acc c pfx hf hnp]
      intro e he
      rcases List.mem_cons.mp he with he | he
      · right
        rw [he]
        exact inst_trans_mag tr c.inst_tr htr hcm
      · rcases hrec _ _ _ _ _ e he with he2 | he2
        · exact Or.inl he2
        · exact Or.inr he2
    | none =>
      rw [bnrStep_new_purged nl? cn ccp dcp rec tcell (trWoMag tr) (trMag tr) acc c hf hnp]
      intro e he
      exact Or.inl he

theorem build_net_rec_mag (cl : Clusters) (nl? : Option NetlistM) (cn : Nat → String)
    (lmap : List (Nat × Option Nat)) (ccp dcp : Option String)
    (HC : ∀ en ∈ cl, ∀ c ∈ en.conns, c.inst_tr.m = 1) :
    ∀ (fuel ci cid : Nat) (st : Target) (tc : Nat) (net? : Option NetM)
      (ncp : Option String) (cmap : CMap) (tr : ICplxTrans), tr.m ≠ 0 →
      ∀ e ∈ (build_net_rec cl nl? cn lmap ccp dcp fuel ci cid st tc net? ncp cmap tr).1.insts,
        e ∈ st.insts ∨ (e.2.2).m = 1 := by
  intro fuel
  induction fuel with
  | zero =>
    intro ci cid st tc net? ncp cmap tr htr e he
    exact Or.inl he
  | succ f ih =>
    intro ci cid st tc net? ncp cmap tr htr
    have htrm : (trMag tr).m ≠ 0 := htr
    have hfold : ∀ (tcell : Nat) (s0 : Target) (cm0 : CMap),
        ∀ e ∈ ((connsOf cl ci cid).foldl
            (bnrStep nl? cn ccp dcp
              (fun a b s t m =>
                build_net_rec cl nl? cn lmap ccp dcp f a b s t none none m (trMag tr))
              tcell (trWoMag tr) (trMag tr)) (s0, cm0)).1.insts,
          e ∈ s0.insts ∨ (e.2.2).m = 1 := by
      intro tcell s0 cm0
      refine foldl_rel
        (fun a b => ∀ e ∈ b.1.insts, e ∈ a.1.insts ∨ (e.2.2).m = 1)
        _ _ ?_ ?_ ?_ (s0, cm0)
      · intro a e he
        exact Or.inl he
      · intro a b c h1 h2 e he
        rcases h2 e he with he2 | he2
        · exact h1 e he2
        · exact Or.inr he2
      · intro a c hc
        obtain ⟨en, hen, hcen⟩ := connsOf_sub cl ci cid c hc
        exact bnrStep_mag nl? cn ccp dcp _ tcell tr htr
          (fun a b s t m => ih a b s t none none m (trMag tr) htrm) a c
          (HC en hen c hcen)
    cases ncp with
    | none =>
      rw [build_net_rec_none_eq]
      obtain ⟨_, hc2, _⟩ := deliverLayers_skeleton cl nl? lmap ci cid tc tr (f + 1) st
      by_cases hcd : (ccp.isNone && dcp.isNone) = true
      · rw [if_pos hcd]
        intro e he
        rw [hc2] at he
        exact Or.inl he
      · rw [if_neg hcd]
        intro e he
        rcases hfold tc (deliverLayers cl nl? lmap ci cid tc tr (f + 1) st) cmap e he
          with he2 | he2
        · rw [hc2] at he2
          exact Or.inl he2
        · exact Or.inr he2
    | some p =>
      by_cases hD : (!(ccp.isSome && !(connsOf cl ci cid).isEmpty) &&
          !anyShapes cl nl? lmap ci cid tr (f + 1)) = true
      · rw [build_net_rec_elide_eq cl nl? cn lmap ccp dcp f ci cid st tc net? p cmap tr hD]
        intro e he
        exact Or.inl he
      · rw [build_net_rec_make_eq cl nl? cn lmap ccp dcp f ci cid st tc net? p cmap tr hD]
        have hst1i : (insert_inst (add_cell st (p ++ xnameOf net?)).2 tc
            (add_cell st (p ++ xnameOf net?)).1 ICplxTrans.one).insts =
            (tc, st.next_cell, ICplxTrans.one) :: st.insts := rfl
        obtain ⟨_, hc2, _⟩ := deliverLayers_skeleton cl nl? lmap ci cid
          (add_cell st (p ++ xnameOf net?)).1 tr (f + 1)
          (insert_inst (add_cell st (p ++ xnameOf net?)).2 tc
            (add_cell st (p ++ xnameOf net?)).1 ICplxTrans.one)
        have hbase : ∀ e ∈ (deliverLayers cl nl? lmap ci cid
            (add_cell st (p ++ xnameOf net?)).1 tr (f + 1)
            (insert_inst (add_cell st (p ++ xnameOf net?)).2 tc
              (add_cell st (p ++ xnameOf net?)).1 ICplxTrans.one)).insts,
            e ∈ st.insts ∨ (e.2.2).m = 1 := by
          intro e he
          rw [hc2, hst1i] at he
          rcases List.mem_cons.mp he with he | he
          · right
            rw [he]
            rfl
          · exact Or.inl he
        by_cases hcd : (ccp.isNone && dcp.isNone) = true
        · rw [if_pos hcd]
          intro e he
          exact hbase e he
        · rw [if_neg hcd]
          intro e he
          rcases hfold (add_cell st (p ++ xnameOf net?)).1
            (deliverLayers cl nl? lmap ci cid
              (add_cell st (p ++ xnameOf net?)).1 tr (f + 1)
              (insert_inst (add_cell st (p ++ xnameOf net?)).2 tc
                (add_cell st (p ++ xnameOf net?)).1 ICplxTrans.one)) cmap e he
            with he2 | he2
          · exact hbase e he2
          · exact Or.inr he2

/-- C8: during hierarchy rebuild, the running transform is split into a
pure magnification `trMag` (identity rotation, zero translation) that is
propagated into the recursion, and a magnification-free part `trWoMag`
kept in instance placements; under unit-magnification connection
transforms no magnified instance placement is ever created; and the
memoization map keyed by `(child_cell_id, child_cluster_id)` is
append-only (existing assignments are preserved) with keys staying
unique, so a target cell is created at most once per pair. -/
theorem c8_magnification (cl : Clusters) (nl? : Option NetlistM) (cn : Nat → String)
    (lmap : List (Nat × Option Nat)) (ccp dcp : Option String) (fuel ci cid : Nat)
    (st : Target) (tc : Nat) (net? : Option NetM) (ncp : Option String) (cmap : CMap)
    (tr : ICplxTrans) (htr : tr.m ≠ 0)
    (HC : ∀ en ∈ cl, ∀ c ∈ en.conns, c.inst_tr.m = 1) :
    (trWoMag tr).m = 1 ∧
    trMag tr = mkMag tr.m ∧
    (trMag tr).rot = (0, false) ∧ (trMag tr).dx = 0 ∧ (trMag tr).dy = 0 ∧
    (∀ e ∈ (build_net_rec cl nl? cn lmap ccp dcp fuel ci cid st tc net? ncp cmap tr).1.insts,
      e ∈ st.insts ∨ (e.2.2).m = 1) ∧
    (∀ k v, cmap.find? (fun x => x.1 == k) = some v →
      (build_net_rec cl nl? cn lmap ccp dcp fuel ci cid st tc net? ncp cmap tr).2.find?
        (fun x => x.1 == k) = some v) ∧
    ((cmap.map (fun x => x.1)).Nodup →
      ((build_net_rec cl nl? cn lmap ccp dcp fuel ci cid st tc net? ncp cmap tr).2.map
        (fun x => x.1)).Nodup) := by
  refine ⟨trWoMag_m tr htr, rfl, rfl, rfl, rfl, ?_, ?_, ?_⟩
  · exact build_net_rec_mag cl nl? cn lmap ccp dcp HC fuel ci cid st tc net? ncp cmap tr htr
  · exact (build_net_rec_cmap cl nl? cn lmap ccp dcp fuel ci cid st tc net? ncp cmap tr).1
  · exact (build_net_rec_cmap cl nl? cn lmap ccp dcp fuel ci cid st tc net? ncp cmap tr).2

theorem c8_magnification_witness :
    (trWoMag (mkMag 1)).m = 1 ∧
    ((0, 10, ICplxTrans.one) ∈ tgt2.insts ∨ (ICplxTrans.one).m = 1) ∧
    (build_net_rec cl2b none (fun _ => "") [(0, some 0)] none none 3 5 1 tgt2 0
      (some net2) (some "N") [((0, 0), some 5)] (mkMag 1)).2.find?
      (fun x => x.1 == (0, 0)) = some ((0, 0), some 5) := by
  have h := c8_magnification cl2b none (fun _ => "") [(0, some 0)] none none 3 5 1 tgt2 0
    (some net2) (some "N") [((0, 0), some 5)] (mkMag 1) (by norm_num [mkMag])
    (by simp [cl2b])
  refine ⟨h.1, ?_, h.2.2.2.2.2.2.1 (0, 0) ((0, 0), some 5) (by decide)⟩
  right
  rfl

/-- The claim of C6 fails on the code: cell 1 is kept (a circuit of
`nl6`), yet the non-recursive delivery starting at cluster `(0, 1)`
yields shape 20, which lies in the subtree of a connection into cell 1
— the per-shape skip check never fires because cell 1's cluster has no
shape on the queried layer.  The delivery the specification describes
(`prunedShapes`, pruning every kept child subtree) yields only
shape 10. -/
theorem c6_counterexample :
    keepCell (some nl6) 1 = true ∧
    (shapes_of_net cl6 (some nl6) net6 0 false 4).map (fun e => e.2.2) = [10, 20] ∧
    (prunedShapes cl6 (some nl6) 0 0 4 0 1 ICplxTrans.one).map (fun e => e.2.2) = [10] := by
  refine ⟨by decide, by decide, by decide⟩

theorem nonrecGo_skip_eq (cl : Clusters) (nl? : Option NetlistM) (layer ci0 : Nat)
    (f ci cid : Nat) (t : ICplxTrans) (prev : Nat)
    (h : (!(shapesOf cl ci cid layer).isEmpty && ci != prev && ci != ci0 &&
      keepCell nl? ci) = true) :
    nonrecGo cl nl? layer ci0 (f + 1) ci cid t prev = ([], prev) := by
  simp only [nonrecGo, h, if_true]

theorem nonrecGo_go_eq (cl : Clusters) (nl? : Option NetlistM) (layer ci0 : Nat)
    (f ci cid : Nat) (t : ICplxTrans) (prev : Nat)
    (h : (!(shapesOf cl ci cid layer).isEmpty && ci != prev && ci != ci0 &&
      keepCell nl? ci) = false) :
    nonrecGo cl nl? layer ci0 (f + 1) ci cid t prev =
      ((shapesOf cl ci cid layer).map (fun s => (ci, t, s)) ++
        ((connsOf cl ci cid).foldl
          (fun acc c =>
            let rc := nonrecGo cl nl? layer ci0 f c.inst_cell c.child_id
              (t.mul c.inst_tr) acc.2
            (acc.1 ++ rc.1, rc.2))
          (([] : List (Nat × ICplxTrans × Nat)),
            if (shapesOf cl ci cid layer).isEmpty then prev else ci)).1,
       ((connsOf cl ci cid).foldl
          (fun acc c =>
            let rc := nonrecGo cl nl? layer ci0 f c.inst_cell c.child_id
              (t.mul c.inst_tr) acc.2
            (acc.1 ++ rc.1, rc.2))
          (([] : List (Nat × ICplxTrans × Nat)),
            if (shapesOf cl ci cid layer).isEmpty then prev else ci)).2) := by
  simp only [nonrecGo, h, Bool.false_eq_true, if_false]

theorem nonrecGo_pruned (cl : Clusters) (nl? : Option NetlistM) (layer ci0 : Nat)
    (H : ∀ e ∈ cl, keepCell nl? e.cell = true → e.cell ≠ ci0 →
      e.shapes.filter (fun q => q.1 == layer) ≠ []) :
    ∀ (fuel ci cid : Nat) (t : ICplxTrans) (prev : Nat),
      (prev = ci0 ∨ keepCell nl? prev = false) →
      ((keepCell nl? ci = false ∨ ci = ci0) →
        (nonrecGo cl nl? layer ci0 fuel ci cid t prev).1 =
          prunedShapes cl nl? layer ci0 fuel ci cid t ∧
        ((nonrecGo cl nl? layer ci0 fuel ci cid t prev).2 = ci0 ∨
          keepCell nl? (nonrecGo cl nl? layer ci0 fuel ci cid t prev).2 = false)) ∧
      ((keepCell nl? ci = true ∧ ci ≠ ci0) →
        nonrecGo cl nl? layer ci0 fuel ci cid t prev = ([], prev)) := by
  have hS : ∀ ci cid, keepCell nl? ci = true → ci ≠ ci0 →
      shapesOf cl ci cid layer ≠ [] ∨
      (shapesOf cl ci cid layer = [] ∧ connsOf cl ci cid = []) := by
    intro ci cid hk hne
    cases hf : cl.find? (fun e => e.cell == ci && e.cid == cid) with
    | some e =>
      left
      have hmem := List.mem_of_find?_eq_some hf
      have hcell : e.cell = ci := by
        have hpred := List.find?_some hf
        simp only [Bool.and_eq_true, beq_iff_eq] at hpred
        exact hpred.1
      have hres := H e hmem (by rw [hcell]; exact hk) (by rw [hcell]; exact hne)
      unfold shapesOf
      rw [hf]
      simpa using hres
    | none =>
      right
      constructor
      · unfold shapesOf
        rw [hf]
      · unfold connsOf
        rw [hf]
  intro fuel
  induction fuel with
  | zero =>
    intro ci cid t prev hInv
    exact ⟨fun _ => ⟨rfl, hInv⟩, fun _ => rfl⟩
  | succ f ih =>
    intro ci cid t prev hInv
    constructor
    · intro hci
      have hskip : (!(shapesOf cl ci cid layer).isEmpty && ci != prev && ci != ci0 &&
          keepCell nl? ci) = false := by
        rcases hci with hk | hs
        · simp [hk]
        · rw [hs]
          simp
      rw [nonrecGo_go_eq cl nl? layer ci0 f ci cid t prev hskip]
      have hInv' : ((if (shapesOf cl ci cid layer).isEmpty then prev else ci) = ci0 ∨
          keepCell nl? (if (shapesOf cl ci cid layer).isEmpty then prev else ci)
            = false) := by
        by_cases ho : (shapesOf cl ci cid layer).isEmpty
        · rw [if_pos ho]
          exact hInv
        · rw [if_neg ho]
          rcases hci with hk | hs
          · exact Or.inr hk
          · exact Or.inl hs
      have hfold : ∀ (cs : List ConnM) (es : List (Nat × ICplxTrans × Nat)) (p : Nat),
          (p = ci0 ∨ keepCell nl? p = false) →
          (cs.foldl (fun acc c =>
              let rc := nonrecGo cl nl? layer ci0 f c.inst_cell c.child_id
                (t.mul c.inst_tr) acc.2
              (acc.1 ++ rc.1, rc.2)) (es, p)).1 =
            es ++ cs.flatMap (fun c =>
              if c.inst_cell != ci0 && keepCell nl? c.inst_cell then []
              else prunedShapes cl nl? layer ci0 f c.inst_cell c.child_id
                (t.mul c.inst_tr)) ∧
          ((cs.foldl (fun acc c =>
              let rc := nonrecGo cl nl? layer ci0 f c.inst_cell c.child_id
                (t.mul c.inst_tr) acc.2
              (acc.1 ++ rc.1, rc.2)) (es, p)).2 = ci0 ∨
            keepCell nl? ((cs.foldl (fun acc c =>
              let rc := nonrecGo cl nl? layer ci0 f c.inst_cell c.child_id
                (t.mul c.inst_tr) acc.2
              (acc.1 ++ rc.1, rc.2)) (es, p)).2) = false) := by
        intro cs
        induction cs with
        | nil =>
          intro es p hp
          exact ⟨by simp, hp⟩
        | cons c cs' ihc =>
          intro es p hp
          by_cases hkc : keepCell nl? c.inst_cell = true ∧ c.inst_cell ≠ ci0
          · have h2 := (ih c.inst_cell c.child_id (t.mul c.inst_tr) p hp).2 hkc
            have hguard : (c.inst_cell != ci0 && keepCell nl? c.inst_cell) = true := by
              simp only [Bool.and_eq_true, bne_iff_ne, ne_eq]
              exact ⟨hkc.2, hkc.1⟩
            simp only [List.foldl_cons, List.flatMap_cons, h2, hguard, if_true,
              List.nil_append, List.append_nil]
            exact ihc es p hp
          · have hc1 : keepCell nl? c.inst_cell = false ∨ c.inst_cell = ci0 := by
              by_cases hck : keepCell nl? c.inst_cell = true
              · right
                by_contra hne
                exact hkc ⟨hck, hne⟩
              · left
                exact Bool.eq_false_iff.mpr hck
            obtain ⟨p1, p2⟩ := (ih c.inst_cell c.child_id (t.mul c.inst_tr) p hp).1 hc1
            have hguard : (c.inst_cell != ci0 && keepCell nl? c.inst_cell) = false := by
              rcases hc1 with hh | hh
              · simp [hh]
              · rw [hh]
                simp
            simp only [List.foldl_cons, List.flatMap_cons, hguard, Bool.false_eq_true,
              if_false]
            obtain ⟨g1, g2⟩ := ihc
              (es ++ (nonrecGo cl nl? layer ci0 f c.inst_cell c.child_id
                (t.mul c.inst_tr) p).1)
              ((nonrecGo cl nl? layer ci0 f c.inst_cell c.child_id
                (t.mul c.inst_tr) p).2) p2
            refine ⟨?_, g2⟩
            rw [g1, p1, List.append_assoc]
      obtain ⟨g1, g2⟩ := hfold (connsOf cl ci cid) []
        (if (shapesOf cl ci cid layer).isEmpty then prev else ci) hInv'
      constructor
      · show (shapesOf cl ci cid layer).map (fun s => (ci, t, s)) ++ _ = _
        rw [g1, List.nil_append]
        rfl
      · exact g2
    · intro ⟨hk, hne⟩
      rcases hS ci cid hk hne with hsh | ⟨hsh, hco⟩
      · have h1 : (shapesOf cl ci cid layer).isEmpty = false := by
          cases hl : shapesOf cl ci cid layer with
          | nil => exact absurd hl hsh
          | cons a l => rfl
        have h2 : ci ≠ prev := by
          rcases hInv with hp | hp
          · rw [hp]
            exact hne
          · intro hcon
            rw [hcon] at hk
            rw [hk] at hp
            exact Bool.noConfusion hp
        have hskip : (!(shapesOf cl ci cid layer).isEmpty && ci != prev && ci != ci0 &&
            keepCell nl? ci) = true := by
          simp [h1, bne_iff_ne, h2, hne, hk]
        rw [nonrecGo_skip_eq cl nl? layer ci0 f ci cid t prev hskip]
      · have h1 : (shapesOf cl ci cid layer).isEmpty = true := by
          rw [hsh]
          rfl
        have hskip : (!(shapesOf cl ci cid layer).isEmpty && ci != prev && ci != ci0 &&
            keepCell nl? ci) = false := by
          simp [h1]
        rw [nonrecGo_go_eq cl nl? layer ci0 f ci cid t prev hskip]
        simp [hsh, hco]

/-- C6 (amended): non-recursive delivery yields the shapes of the net's
cluster in the net's own cell plus, flattened, the shapes of purged
subtrees; a subtree below a kept (circuit or device-abstract) cell is
skipped when a shape of that kept cell is encountered — which is
guaranteed whenever every kept non-start cluster entry owns a shape on
the queried layer.  Under that condition the delivery equals the
spec-described pruned traversal exactly, and a kept foreign cluster
frame delivers none of its shapes. -/
theorem c6_nonrecursive_delivery (cl : Clusters) (nl? : Option NetlistM) (layer : Nat)
    (net : NetM) (fuel : Nat)
    (H : ∀ e ∈ cl, keepCell nl? e.cell = true → e.cell ≠ net.ccell →
      e.shapes.filter (fun q => q.1 == layer) ≠ []) :
    shapes_of_net cl nl? net layer false fuel =
      prunedShapes cl nl? layer net.ccell fuel net.ccell net.cluster_id ICplxTrans.one ∧
    (∀ (f ci cid : Nat) (t : ICplxTrans) (prev : Nat),
      (prev = net.ccell ∨ keepCell nl? prev = false) →
      keepCell nl? ci = true → ci ≠ net.ccell →
      nonrecGo cl nl? layer net.ccell f ci cid t prev = ([], prev)) := by
  constructor
  · show (nonrecGo cl nl? layer net.ccell fuel net.ccell net.cluster_id
      ICplxTrans.one net.ccell).1 = _
    exact ((nonrecGo_pruned cl nl? layer net.ccell H fuel net.ccell net.cluster_id
      ICplxTrans.one net.ccell (Or.inl rfl)).1 (Or.inr rfl)).1
  · intro f ci cid t prev hInv hk hne
    exact (nonrecGo_pruned cl nl? layer net.ccell H f ci cid t prev hInv).2 ⟨hk, hne⟩

theorem c6_nonrecursive_delivery_witness :
    shapes_of_net cl6w (some nl6) net6 0 false 4 =
      prunedShapes cl6w (some nl6) 0 0 4 0 1 ICplxTrans.one ∧
    nonrecGo cl6w (some nl6) 0 0 3 1 1 ICplxTrans.one 0 = ([], 0) := by
  have h := c6_nonrecursive_delivery cl6w (some nl6) 0 net6 4 (by decide)
  exact ⟨h.1, h.2 3 1 1 ICplxTrans.one 0 (Or.inl rfl) (by decide) (by decide)⟩

end L2NV
